import Mathlib

/-! ## Ardour tempo map value types: a shallow embedding of `libs/ardour/ardour/tempo.h`

The embedding follows the header class by class.

* `double` values are modelled as exact rationals (`ℚ`): every arithmetic
  operation of the source is the exact operation, IEEE-754 rounding, infinities
  and NaN are not modelled.  The results below are therefore statements about
  the formulas the code evaluates.
* Where rounding decides a statement, the methods of `Tempo` are given a second
  time on `F64`, binary64 arithmetic with round-to-nearest-even, in `TempoF64`.
* `framepos_t` and `framecnt_t` (64-bit signed integers) are modelled as `Int`;
  the header does no integer arithmetic on them, so no wrap-around can occur.
* `uint32_t` values are modelled as `Nat`; again the header only stores and
  compares them.
* C++ constructor overloads get distinct names (`of_pulse`, `of_frame`), and
  so do the two overloads of `MeterSection::set_beat`.

The second part embeds `libs/ardour/slavable_automation_control.cc`: the
state of a slaved control is passed explicitly, locks are left out (every
operation runs to completion on its own), the values of the master controls
are an environment `gv`, and the virtual hook `recompute_masters_ratios`,
whose body lives in other classes, is a function parameter `R`.
-/

namespace ARDOUR

/-- 64-bit signed sample position (`framepos_t`). -/
abbrev framepos_t := Int

/-- 64-bit signed sample count (`framecnt_t`). -/
abbrev framecnt_t := Int

/-- Modelled from the spec: the enumeration `PositionLockStyle` is declared
in a header that is not embedded here; the spec gives its two values, AudioTime and
MusicTime. -/
inductive PositionLockStyle where
  | AudioTime
  | MusicTime
deriving DecidableEq, Repr

end ARDOUR

namespace Timecode

/-- Modelled from the spec: `Timecode::BBT_Time` is declared in a header
that is not embedded here; the spec describes it as the triple (bar, beat, tick), and
the header builds it as `BBT_Time (bars, beats, ticks)` from `uint32_t`
values. -/
structure BBT_Time where
  bars : Nat
  beats : Nat
  ticks : Nat
deriving DecidableEq, Repr

end Timecode

namespace ARDOUR

open Timecode

/-! ## Tempo -/

/-- Tempo, the speed at which musical time progresses (BPM). -/
structure Tempo where
  _beats_per_minute : ℚ
  _note_type : ℚ
deriving DecidableEq, Repr

/-- Constructor `Tempo (double bpm, double type)`. -/
def Tempo.new (bpm : ℚ) (type : ℚ) : Tempo :=
  Tempo.mk bpm type

/-- Constructor `Tempo (double bpm)` with the defaulted quarter note type. -/
def Tempo.new_quarter (bpm : ℚ) : Tempo :=
  Tempo.new bpm 4

def Tempo.beats_per_minute (t : Tempo) : ℚ := t._beats_per_minute

def Tempo.set_beats_per_minute (t : Tempo) (bpm : ℚ) : Tempo :=
  { t with _beats_per_minute := bpm }

def Tempo.note_type (t : Tempo) : ℚ := t._note_type

def Tempo.pulses_per_minute (t : Tempo) : ℚ :=
  t._beats_per_minute / t._note_type

/-- The expression `(60.0 * sr) / _beats_per_minute` in exact arithmetic;
`TempoF64.frames_per_beat` is the same expression in binary64. -/
def Tempo.frames_per_beat (t : Tempo) (sr : framecnt_t) : ℚ :=
  (60 * (sr : ℚ)) / t._beats_per_minute

/-- The expression `(_note_type * 60.0 * sr) / _beats_per_minute` in exact
arithmetic; `TempoF64.frames_per_pulse` is the same expression in binary64. -/
def Tempo.frames_per_pulse (t : Tempo) (sr : framecnt_t) : ℚ :=
  (t._note_type * 60 * (sr : ℚ)) / t._beats_per_minute

/-! ## Tempo in binary64 arithmetic

`F64` holds the finite values of an IEEE-754 binary64 `double`; an operation
whose result is not finite (overflow, division by zero) returns `none`. -/

/-- A finite binary64 value, `mant * 2 ^ expo`, in its one normal form:
zero is `mant = 0, expo = 0`; otherwise `2 ^ 52 <= |mant| < 2 ^ 53` with
`-1074 <= expo <= 971`, or `|mant| < 2 ^ 52` with `expo = -1074` (subnormal). -/
structure F64 where
  mant : Int
  expo : Int
deriving DecidableEq, Repr

def F64.zero : F64 := F64.mk 0 0

/-- Halve `n / d` (raising the exponent) while it is at least `2 ^ 53` or the
exponent is below the least one. -/
def F64.scale_down : Nat → Nat → Nat → Int → Nat × Nat × Int
  | 0, n, d, e => (n, d, e)
  | fuel + 1, n, d, e =>
    if 2 ^ 53 * d ≤ n ∨ e < -1074 then F64.scale_down fuel n (2 * d) (e + 1) else (n, d, e)

/-- Double `n / d` (lowering the exponent) while it is below `2 ^ 52` and the
exponent is above the least one. -/
def F64.scale_up : Nat → Nat → Nat → Int → Nat × Nat × Int
  | 0, n, d, e => (n, d, e)
  | fuel + 1, n, d, e =>
    if n < 2 ^ 52 * d ∧ -1074 < e then F64.scale_up fuel (2 * n) d (e - 1) else (n, d, e)

/-- The integer nearest to `n / d`, the even one of the two on a tie. -/
def F64.nearest_even (n d : Nat) : Nat :=
  let q := n / d
  let r := n % d
  if 2 * r < d then q else if d < 2 * r then q + 1 else if q % 2 = 0 then q else q + 1

/-- Round the real number `(n / d) * 2 ^ e`, negated when `neg`, to binary64
with round-to-nearest-even; `none` when the result overflows.  On the
products and quotients of two `F64` values the two scaling loops stop well
within their 5000 steps. -/
def F64.round (neg : Bool) (n d : Nat) (e : Int) : Option F64 :=
  let s1 := F64.scale_down 5000 n d e
  let s2 := F64.scale_up 5000 s1.1 s1.2.1 s1.2.2
  let m := F64.nearest_even s2.1 s2.2.1
  let m1 := if m = 2 ^ 53 then 2 ^ 52 else m
  let e1 := if m = 2 ^ 53 then s2.2.2 + 1 else s2.2.2
  if m1 = 0 then some F64.zero
  else if 971 < e1 then none
  else some (F64.mk (if neg then -(m1 : Int) else (m1 : Int)) e1)

/-- The conversion of an integer to `double`; it cannot overflow on a 64-bit
integer. -/
def F64.of_int (n : Int) : F64 :=
  (F64.round (decide (n < 0)) n.natAbs 1 0).getD F64.zero

/-- The product `a * b` of two doubles. -/
def F64.mul (a b : F64) : Option F64 :=
  F64.round (xor (decide (a.mant < 0)) (decide (b.mant < 0)))
    (a.mant.natAbs * b.mant.natAbs) 1 (a.expo + b.expo)

/-- The quotient `a / b` of two doubles. -/
def F64.div (a b : F64) : Option F64 :=
  if b.mant = 0 then none
  else
    F64.round (xor (decide (a.mant < 0)) (decide (b.mant < 0)))
      a.mant.natAbs b.mant.natAbs (a.expo - b.expo)

/-- The class Tempo with its two members held as binary64 values. -/
structure TempoF64 where
  _beats_per_minute : F64
  _note_type : F64
deriving DecidableEq, Repr

def TempoF64.new (bpm : F64) (type : F64) : TempoF64 :=
  TempoF64.mk bpm type

def TempoF64.beats_per_minute (t : TempoF64) : F64 := t._beats_per_minute

def TempoF64.note_type (t : TempoF64) : F64 := t._note_type

/-- The expression `(60.0 * sr) / _beats_per_minute`, operation by operation. -/
def TempoF64.frames_per_beat (t : TempoF64) (sr : framecnt_t) : Option F64 :=
  (F64.mul (F64.of_int 60) (F64.of_int sr)).bind (fun a => F64.div a t._beats_per_minute)

/-- The expression `(_note_type * 60.0 * sr) / _beats_per_minute`, operation
by operation. -/
def TempoF64.frames_per_pulse (t : TempoF64) (sr : framecnt_t) : Option F64 :=
  ((F64.mul t._note_type (F64.of_int 60)).bind (fun a => F64.mul a (F64.of_int sr))).bind
    (fun b => F64.div b t._beats_per_minute)

/-! ## Meter -/

/-- Meter, or time signature (beats per bar, and which note type is a beat). -/
structure Meter where
  _divisions_per_bar : ℚ
  _note_type : ℚ
deriving DecidableEq, Repr

def Meter.new (dpb : ℚ) (bt : ℚ) : Meter :=
  Meter.mk dpb bt

def Meter.divisions_per_bar (m : Meter) : ℚ := m._divisions_per_bar

def Meter.note_divisor (m : Meter) : ℚ := m._note_type

/-! ## MetricSection -/

/-- A section of timeline with a certain Tempo or Meter. -/
structure MetricSection where
  _pulse : ℚ
  _frame : framepos_t
  _movable : Bool
  _position_lock_style : PositionLockStyle
deriving DecidableEq, Repr

/-- Constructor `MetricSection (double pulse)`. -/
def MetricSection.of_pulse (pulse : ℚ) : MetricSection :=
  MetricSection.mk pulse 0 true PositionLockStyle.MusicTime

/-- Constructor `MetricSection (framepos_t frame)`. -/
def MetricSection.of_frame (frame : framepos_t) : MetricSection :=
  MetricSection.mk 0 frame true PositionLockStyle.AudioTime

def MetricSection.pulse (s : MetricSection) : ℚ := s._pulse

def MetricSection.set_pulse (s : MetricSection) (pulse : ℚ) : MetricSection :=
  { s with _pulse := pulse }

def MetricSection.frame (s : MetricSection) : framepos_t := s._frame

def MetricSection.set_frame (s : MetricSection) (f : framepos_t) : MetricSection :=
  { s with _frame := f }

def MetricSection.set_movable (s : MetricSection) (yn : Bool) : MetricSection :=
  { s with _movable := yn }

def MetricSection.movable (s : MetricSection) : Bool := s._movable

def MetricSection.position_lock_style (s : MetricSection) : PositionLockStyle :=
  s._position_lock_style

def MetricSection.set_position_lock_style (s : MetricSection) (ps : PositionLockStyle) :
    MetricSection :=
  { s with _position_lock_style := ps }

/-! ## MeterSection -/

/-- A section of timeline with a certain Meter. -/
structure MeterSection extends MetricSection, Meter where
  _bbt : BBT_Time
  _beat : ℚ
deriving DecidableEq, Repr

/-- Constructor `MeterSection (double pulse, double beat, const BBT_Time& bbt,
double bpb, double note_type)`. -/
def MeterSection.of_pulse (pulse : ℚ) (beat : ℚ) (bbt : BBT_Time) (bpb : ℚ) (note_type : ℚ) :
    MeterSection :=
  MeterSection.mk (MetricSection.of_pulse pulse) (Meter.new bpb note_type) bbt beat

/-- Constructor `MeterSection (framepos_t frame, double beat, double bpb,
double note_type)`. -/
def MeterSection.of_frame (frame : framepos_t) (beat : ℚ) (bpb : ℚ) (note_type : ℚ) :
    MeterSection :=
  MeterSection.mk (MetricSection.of_frame frame) (Meter.new bpb note_type) (BBT_Time.mk 1 1 0) beat

def MeterSection.set_pulse (s : MeterSection) (w : ℚ) : MeterSection :=
  { s with toMetricSection := MetricSection.set_pulse s.toMetricSection w }

/-- Inherited `MetricSection::set_frame`. -/
def MeterSection.set_frame (s : MeterSection) (f : framepos_t) : MeterSection :=
  { s with toMetricSection := MetricSection.set_frame s.toMetricSection f }

/-- Overload `set_beat (std::pair<double, BBT_Time>& w)`. -/
def MeterSection.set_beat_pair (s : MeterSection) (w : ℚ × BBT_Time) : MeterSection :=
  { s with _beat := w.1, _bbt := w.2 }

def MeterSection.bbt (s : MeterSection) : BBT_Time := s._bbt

def MeterSection.beat (s : MeterSection) : ℚ := s._beat

/-- Overload `set_beat (double beat)`. -/
def MeterSection.set_beat (s : MeterSection) (beat : ℚ) : MeterSection :=
  { s with _beat := beat }

/-! ## TempoSection -/

/-- The enumeration `TempoSection::Type`. -/
inductive TempoSection.Type_ where
  | Ramp
  | Constant
deriving DecidableEq, Repr

/-- A section of timeline with a certain Tempo. -/
structure TempoSection extends MetricSection, Tempo where
  _bar_offset : ℚ
  _type : TempoSection.Type_
  _c_func : ℚ
  _active : Bool
  _legacy_bbt : BBT_Time
deriving DecidableEq, Repr

/-- Constructor `TempoSection (const double& beat, double qpm, double note_type,
Type tempo_type)`.  The member `_legacy_bbt` is default-constructed by a
`BBT_Time` constructor that is not embedded here; its value is the parameter
`bbt0`. -/
def TempoSection.of_pulse (bbt0 : BBT_Time) (beat : ℚ) (qpm : ℚ) (note_type : ℚ)
    (tempo_type : TempoSection.Type_) : TempoSection :=
  TempoSection.mk (MetricSection.of_pulse beat) (Tempo.new qpm note_type) (-1) tempo_type 0 true
    bbt0

/-- Constructor `TempoSection (framepos_t frame, double qpm, double note_type,
Type tempo_type)`; `bbt0` is as for `of_pulse`. -/
def TempoSection.of_frame (bbt0 : BBT_Time) (frame : framepos_t) (qpm : ℚ) (note_type : ℚ)
    (tempo_type : TempoSection.Type_) : TempoSection :=
  TempoSection.mk (MetricSection.of_frame frame) (Tempo.new qpm note_type) (-1) tempo_type 0 true
    bbt0

def TempoSection.bar_offset (s : TempoSection) : ℚ := s._bar_offset

def TempoSection.active (s : TempoSection) : Bool := s._active

def TempoSection.set_active (s : TempoSection) (yn : Bool) : TempoSection :=
  { s with _active := yn }

def TempoSection.type (s : TempoSection) : TempoSection.Type_ := s._type

def TempoSection.get_c_func (s : TempoSection) : ℚ := s._c_func

def TempoSection.set_c_func (s : TempoSection) (c_func : ℚ) : TempoSection :=
  { s with _c_func := c_func }

def TempoSection.legacy_bbt (s : TempoSection) : BBT_Time := s._legacy_bbt

/-- Inherited `MetricSection::set_pulse`. -/
def TempoSection.set_pulse (s : TempoSection) (pulse : ℚ) : TempoSection :=
  { s with toMetricSection := MetricSection.set_pulse s.toMetricSection pulse }

/-- Inherited `MetricSection::set_frame`. -/
def TempoSection.set_frame (s : TempoSection) (f : framepos_t) : TempoSection :=
  { s with toMetricSection := MetricSection.set_frame s.toMetricSection f }

/-! ## TempoMap::BBTPoint

A `BBTPoint` holds a pointer to a meter section and a `Tempo` by value.  To
tell the two apart the objects the constructor is handed by reference live in
a `Heap` and are named by their address. -/

/-- The objects a `BBTPoint` constructor receives by reference, by address. -/
structure Heap where
  meters : Nat → MeterSection
  tempos : Nat → Tempo

/-- Run `set_beats_per_minute (bpm)` on the tempo object at address `a`. -/
def Heap.tempo_set_beats_per_minute (h : Heap) (a : Nat) (bpm : ℚ) : Heap :=
  { h with tempos := Function.update h.tempos a (Tempo.set_beats_per_minute (h.tempos a) bpm) }

/-- Run `set_beat (beat)` on the meter section at address `a`. -/
def Heap.meter_set_beat (h : Heap) (a : Nat) (beat : ℚ) : Heap :=
  { h with meters := Function.update h.meters a (MeterSection.set_beat (h.meters a) beat) }

/-- The struct `TempoMap::BBTPoint`; `meter` is the address of a meter
section, `tempo` is a value. -/
structure TempoMap.BBTPoint where
  frame : framepos_t
  meter : Nat
  tempo : Tempo
  c : ℚ
  bar : Nat
  beat : Nat
deriving DecidableEq, Repr

/-- Constructor `BBTPoint (const MeterSection& m, const Tempo& t, framepos_t f,
uint32_t b, uint32_t e, double func_c)`: `m` and `t` are the addresses of the
two referents in `h`. -/
def TempoMap.BBTPoint.new (h : Heap) (m : Nat) (t : Nat) (f : framepos_t) (b : Nat) (e : Nat)
    (func_c : ℚ) : TempoMap.BBTPoint :=
  TempoMap.BBTPoint.mk f m
    (Tempo.new (Tempo.beats_per_minute (h.tempos t)) (Tempo.note_type (h.tempos t))) func_c b e

def TempoMap.BBTPoint.bbt (p : TempoMap.BBTPoint) : BBT_Time :=
  BBT_Time.mk p.bar p.beat 0

def TempoMap.BBTPoint.is_bar (p : TempoMap.BBTPoint) : Bool :=
  p.beat == 1

/-! ## TempoMetric -/

/-- The object a non-null `const MetricSection*` points at, with its dynamic
type, as `dynamic_cast` sees it: a MeterSection, a TempoSection, or a section
of some further subclass. -/
inductive MetricSectionObj where
  | meter (m : MeterSection)
  | tempo (t : TempoSection)
  | other (s : MetricSection)
deriving DecidableEq, Repr

/-- The MetricSection base of the object. -/
def MetricSectionObj.base : MetricSectionObj → MetricSection
  | MetricSectionObj.meter m => m.toMetricSection
  | MetricSectionObj.tempo t => t.toMetricSection
  | MetricSectionObj.other s => s

/-- A non-null `const MetricSection*`: an address and the object found there. -/
structure MetricSectionPtr where
  addr : Nat
  obj : MetricSectionObj
deriving DecidableEq, Repr

/-- Helper class to keep track of the Meter *AND* Tempo in effect at a given
point in time.  `_meter` and `_tempo` are pointers, held as addresses. -/
structure TempoMetric where
  _meter : Nat
  _tempo : Nat
  _frame : framepos_t
  _pulse : ℚ
deriving DecidableEq, Repr

/-- Constructor `TempoMetric (const Meter& m, const Tempo& t)`; it leaves
`_pulse` uninitialised, `pulse0` stands for whatever value it then holds. -/
def TempoMetric.new (pulse0 : ℚ) (m : Nat) (t : Nat) : TempoMetric :=
  TempoMetric.mk m t 0 pulse0

def TempoMetric.set_tempo (tm : TempoMetric) (t : Nat) : TempoMetric :=
  { tm with _tempo := t }

def TempoMetric.set_meter (tm : TempoMetric) (m : Nat) : TempoMetric :=
  { tm with _meter := m }

def TempoMetric.set_frame (tm : TempoMetric) (f : framepos_t) : TempoMetric :=
  { tm with _frame := f }

def TempoMetric.set_pulse (tm : TempoMetric) (p : ℚ) : TempoMetric :=
  { tm with _pulse := p }

def TempoMetric.set_metric (tm : TempoMetric) (sec : MetricSectionPtr) : TempoMetric :=
  let tm1 :=
    match sec.obj with
    | MetricSectionObj.meter _ => TempoMetric.set_meter tm sec.addr
    | MetricSectionObj.tempo _ => TempoMetric.set_tempo tm sec.addr
    | MetricSectionObj.other _ => tm
  let tm2 := TempoMetric.set_frame tm1 (MetricSection.frame sec.obj.base)
  TempoMetric.set_pulse tm2 (MetricSection.pulse sec.obj.base)

/-- The address held in `_meter` (the source returns the reference `*_meter`). -/
def TempoMetric.meter (tm : TempoMetric) : Nat := tm._meter

/-- The address held in `_tempo` (the source returns the reference `*_tempo`). -/
def TempoMetric.tempo (tm : TempoMetric) : Nat := tm._tempo

def TempoMetric.frame (tm : TempoMetric) : framepos_t := tm._frame

def TempoMetric.pulse (tm : TempoMetric) : ℚ := tm._pulse

/-! ## SlavableAutomationControl -/

/-- Modelled from the spec: `ParameterDescriptor` is declared in a header
that is not embedded here and the spec leaves it out of scope; these are the
four members of `_desc` that the source file reads. -/
structure ParameterDescriptor where
  normal : ℚ
  lower : ℚ
  upper : ℚ
  toggled : Bool
deriving DecidableEq, Repr

/-- A `boost::shared_ptr<AutomationControl>` to a master control, named by
the `PBD::ID` that `id ()` returns for the control it points at. -/
structure AutomationControlPtr where
  id : Nat
deriving DecidableEq, Repr

/-- Modelled from the spec: `MasterRecord` is declared in a header that is
not embedded here and the spec leaves it out of scope; the source file builds
it as `MasterRecord (m, 1.0)` and reads it with `master ()` and `ratio ()`. -/
structure MasterRecord where
  _master : AutomationControlPtr
  _ratio : ℚ
deriving DecidableEq, Repr

def MasterRecord.master (r : MasterRecord) : AutomationControlPtr := r._master

def MasterRecord.ratio (r : MasterRecord) : ℚ := r._ratio

/-- The type `Masters`, a `std::map<PBD::ID, MasterRecord>`: an association
list, kept in key order by `Masters.insert`. -/
abbrev Masters := List (Nat × MasterRecord)

/-- The keys of the map, in iteration order. -/
def Masters.keys (ms : Masters) : List Nat := ms.map Prod.fst

/-- The call `_masters.find (k)`: the record under `k`, or none for `end ()`. -/
def Masters.find (ms : Masters) (k : Nat) : Option MasterRecord := List.lookup k ms

/-- Put a record at its place in key order. -/
def Masters.insert_sorted (k : Nat) (r : MasterRecord) : Masters → Masters
  | [] => [(k, r)]
  | p :: ps => if k < p.1 then (k, r) :: p :: ps else p :: Masters.insert_sorted k r ps

/-- The call `_masters.insert (make_pair (k, r))`: nothing is changed when the
key is present; the second component says whether the insertion took place. -/
def Masters.insert (ms : Masters) (k : Nat) (r : MasterRecord) : Masters × Bool :=
  if (Masters.find ms k).isSome then (ms, false) else (Masters.insert_sorted k r ms, true)

/-- The call `_masters.erase (k)`: the map without the key, and the number of
elements erased. -/
def Masters.erase (ms : Masters) (k : Nat) : Masters × Nat :=
  (ms.filter (fun p => p.1 != k), (ms.filter (fun p => p.1 == k)).length)

/-- The state of a SlavableAutomationControl that the source file reads and
writes.  `_user_value` is `Evoral::Control::_user_value`; `_list_playback`
says whether `_list` is set and reports `automation_playback ()`;
`_list_value` is what the automation list gives at the transport frame;
`MasterStatusChange_count` counts the emissions of the signal
MasterStatusChange; `_session_dirty` records `_session.set_dirty ()`. -/
structure SlavableAutomationControl where
  _desc : ParameterDescriptor
  _masters : Masters
  _user_value : ℚ
  _list_playback : Bool
  _list_value : ℚ
  MasterStatusChange_count : Nat
  _session_dirty : Bool
deriving DecidableEq, Repr

/-- Modelled from the spec: `Control::get_double (from_list, frame)` is
defined in a library that is not embedded here and the spec leaves it out of
scope; by the comment in `actually_set_value` the value read back without the
list is `_user_value`, and with the list it is the value of the list at the
transport frame. -/
def Control.get_double (c : SlavableAutomationControl) (from_list : Bool) : ℚ :=
  if from_list then c._list_value else c._user_value

/-- Modelled from the spec: `AutomationControl::actually_set_value` is
defined in a file that is not embedded here and the spec leaves it out of
scope; by the comment at its call site it sets `_user_value` to the value it
is given.  The group disposition it also receives is not modelled. -/
def AutomationControl.actually_set_value (c : SlavableAutomationControl) (val : ℚ) :
    SlavableAutomationControl :=
  { c with _user_value := val }

namespace SlavableAutomationControl

def get_masters_value_locked (c : SlavableAutomationControl) (gv : AutomationControlPtr → ℚ) :
    ℚ :=
  if c._desc.toggled then
    if c._masters.any (fun mr => gv (MasterRecord.master mr.2) != 0) then c._desc.upper
    else c._desc.lower
  else
    min c._desc.upper
      (c._masters.foldl
        (fun v mr => v * (gv (MasterRecord.master mr.2) * MasterRecord.ratio mr.2))
        c._desc.normal)

def get_value_locked (c : SlavableAutomationControl) (gv : AutomationControlPtr → ℚ) : ℚ :=
  if c._masters.isEmpty then Control.get_double c false
  else if c._desc.toggled then
    if Control.get_double c false != 0 then c._desc.upper
    else get_masters_value_locked c gv
  else get_masters_value_locked c gv

/-- Get the current effective user value based on automation state. -/
def get_value (c : SlavableAutomationControl) (gv : AutomationControlPtr → ℚ) : ℚ :=
  let from_list := c._list_playback
  if !from_list then get_value_locked c gv else Control.get_double c from_list

/-- The first statement of `actually_set_value`: the requested value after
`std::max (std::min (val, upper), lower)`. -/
def actually_set_value_val (c : SlavableAutomationControl) (val : ℚ) : ℚ :=
  max (min val c._desc.upper) c._desc.lower

def actually_set_value (R : ℚ → Masters → Masters) (c : SlavableAutomationControl) (val : ℚ) :
    SlavableAutomationControl :=
  let val := actually_set_value_val c val
  let c1 := if !c._masters.isEmpty then { c with _masters := R val c._masters } else c
  let c2 := AutomationControl.actually_set_value c1 val
  { c2 with _session_dirty := true }

def add_master (R : ℚ → Masters → Masters) (gv : AutomationControlPtr → ℚ)
    (c : SlavableAutomationControl) (m : AutomationControlPtr) : SlavableAutomationControl :=
  let current_value := get_value_locked c gv
  let res := Masters.insert c._masters m.id (MasterRecord.mk m 1)
  let c1 := { c with _masters := res.1 }
  let c2 :=
    if res.2 then
      if c1._desc.toggled then { c1 with _masters := R current_value c1._masters } else c1
    else c1
  let new_value := get_value_locked c2 gv
  let c3 :=
    if res.2 then { c2 with MasterStatusChange_count := c2.MasterStatusChange_count + 1 }
    else c2
  if new_value != current_value then actually_set_value R c3 new_value else c3

def remove_master (R : ℚ → Masters → Masters) (gv : AutomationControlPtr → ℚ)
    (c : SlavableAutomationControl) (m : AutomationControlPtr) : SlavableAutomationControl :=
  let current_value := get_value_locked c gv
  let er := Masters.erase c._masters m.id
  let erased := er.2
  let c1 := { c with _masters := er.1 }
  let c2 := if erased != 0 then { c1 with _masters := R current_value c1._masters } else c1
  let masters_left : Bool := c2._masters.length != 0
  let new_value := get_value_locked c2 gv
  let c3 :=
    if erased != 0 then { c2 with MasterStatusChange_count := c2.MasterStatusChange_count + 1 }
    else c2
  if new_value != current_value then
    if masters_left == false then actually_set_value R c3 current_value else c3
  else c3

/-- The call `wm.lock ()` on a weak reference to the control `wm`: the
control itself while it is alive, none once it has been destroyed. -/
def weak_ptr_lock (alive : AutomationControlPtr → Bool) (wm : AutomationControlPtr) :
    Option AutomationControlPtr :=
  if alive wm then some wm else none

def master_going_away (R : ℚ → Masters → Masters) (gv : AutomationControlPtr → ℚ)
    (alive : AutomationControlPtr → Bool) (c : SlavableAutomationControl)
    (wm : AutomationControlPtr) : SlavableAutomationControl :=
  match weak_ptr_lock alive wm with
  | some m => remove_master R gv c m
  | none => c

def slaved_to (c : SlavableAutomationControl) (m : AutomationControlPtr) : Bool :=
  (Masters.find c._masters m.id).isSome

def slaved (c : SlavableAutomationControl) : Bool :=
  !c._masters.isEmpty

end SlavableAutomationControl

/-- What the callers of the hook `recompute_masters_ratios` rely on: it
recomputes ratios and leaves the keys of the map as they are. -/
def RecomputeKeepsKeys (R : ℚ → Masters → Masters) : Prop :=
  ∀ (v : ℚ) (ms : Masters), Masters.keys (R v ms) = Masters.keys ms

/-- A stronger reading of the hook `recompute_masters_ratios`: it leaves every
record under its key and with its master, whatever it does to the ratios. -/
def RecomputeKeepsMasters (R : ℚ → Masters → Masters) : Prop :=
  ∀ (v : ℚ) (ms : Masters),
    (R v ms).map (fun p => (p.1, MasterRecord.master p.2))
      = ms.map (fun p => (p.1, MasterRecord.master p.2))

/-- What the source relies on when it calls `master ()->get_value ()` on every
record of the map: a record sits under the id of its master, as add_master
puts it there, and the master it holds a `shared_ptr` to is alive. -/
def MastersAlive (alive : AutomationControlPtr → Bool) (c : SlavableAutomationControl) : Prop :=
  ∀ p ∈ c._masters, (MasterRecord.master p.2).id = p.1 ∧ alive (MasterRecord.master p.2) = true

/-! ## Sample states

Concrete states on which the results below are instantiated. -/

/-- A hook `recompute_masters_ratios` that does nothing. -/
def sample_hook : ℚ → Masters → Masters := fun _ ms => ms

/-- A hook `recompute_masters_ratios` that sets every ratio to the value it is
handed. -/
def sample_hook_scale : ℚ → Masters → Masters :=
  fun v ms => ms.map (fun p => (p.1, MasterRecord.mk (MasterRecord.master p.2) v))

/-- A non-toggled control with normal 1, lower 1/2, upper 2, own value 1, no
automation playback and no master. -/
def sample_unslaved : SlavableAutomationControl :=
  SlavableAutomationControl.mk (ParameterDescriptor.mk 1 (1 / 2) 2 false) [] 1 false 0 0 false

/-- A toggled control (lower 0, upper 1) with own value 0 and one master,
of id 7 and ratio 1. -/
def sample_toggled : SlavableAutomationControl :=
  SlavableAutomationControl.mk (ParameterDescriptor.mk 1 0 1 true)
    [(7, MasterRecord.mk (AutomationControlPtr.mk 7) 1)] 0 false 0 0 false

/-- A non-toggled control with normal 1, lower 1/2, upper 2, own value 1, no
automation playback, and one master, of id 7 and ratio 1. -/
def sample_ranged : SlavableAutomationControl :=
  SlavableAutomationControl.mk (ParameterDescriptor.mk 1 (1 / 2) 2 false)
    [(7, MasterRecord.mk (AutomationControlPtr.mk 7) 1)] 1 false 0 0 false

/-! ## Properties named by the specification

These two predicates follow the words of the specification, not the code. -/

/-- In the words of the spec: a bbt on an integer bar boundary has bar >= 1,
beat = 1 and tick = 0. -/
def BBT_on_bar_boundary (b : BBT_Time) : Prop :=
  1 ≤ b.bars ∧ b.beats = 1 ∧ b.ticks = 0

/-- In the words of the spec: a MetricSection has pulse >= 0 and frame >= 0. -/
def MetricSection_coords_nonneg (s : MetricSection) : Prop :=
  0 ≤ MetricSection.pulse s ∧ 0 ≤ MetricSection.frame s

/-! ## Tempo: derived quantities -/

/-- C1: for a Tempo with bpm > 0 and any sample rate sr, frames_per_beat (sr)
is 60 * sr / bpm, and it does not depend on note_type: a Tempo with the same
bpm and any other note type gives the same value. -/
theorem Tempo_frames_per_beat_eq (t : Tempo) (sr : framecnt_t)
    (hbpm : 0 < Tempo.beats_per_minute t) :
    Tempo.frames_per_beat t sr = 60 * (sr : ℚ) / Tempo.beats_per_minute t ∧
      ∀ nt : ℚ,
        Tempo.frames_per_beat (Tempo.new (Tempo.beats_per_minute t) nt) sr
          = Tempo.frames_per_beat t sr := by
  have _ := hbpm
  constructor
  · rfl
  · intro nt
    rfl

/-- Instance of C1 at 120 bpm, quarter note, 48000 samples per second: 24000
samples per beat. -/
theorem Tempo_frames_per_beat_eq_witness :
    (0 : ℚ) < Tempo.beats_per_minute (Tempo.new 120 4) ∧
      Tempo.frames_per_beat (Tempo.new 120 4) 48000 = 24000 := by
  have hpos : (0 : ℚ) < Tempo.beats_per_minute (Tempo.new 120 4) := by
    simp [Tempo.beats_per_minute, Tempo.new]
  refine ⟨hpos, ?_⟩
  rw [(Tempo_frames_per_beat_eq (Tempo.new 120 4) 48000 hpos).1]
  norm_num [Tempo.beats_per_minute, Tempo.new]

/-- C2, as stated, fails in the arithmetic of the code: for the Tempo of 133
bpm with note type 3 at 48000 samples per second, frames_per_pulse is the
double 0x1.fb84cfe133f85p+15 while note_type times frames_per_beat is the next
double up, 0x1.fb84cfe133f86p+15. -/
theorem TempoF64_frames_per_pulse_ne :
    (0 : Int) < (TempoF64.beats_per_minute (TempoF64.new (F64.of_int 133) (F64.of_int 3))).mant ∧
    TempoF64.frames_per_pulse (TempoF64.new (F64.of_int 133) (F64.of_int 3)) 48000
      = some (F64.mk 8928365097729925 (-37)) ∧
    (TempoF64.frames_per_beat (TempoF64.new (F64.of_int 133) (F64.of_int 3)) 48000).bind
        (fun x => F64.mul (TempoF64.note_type (TempoF64.new (F64.of_int 133) (F64.of_int 3))) x)
      = some (F64.mk 8928365097729926 (-37)) ∧
    TempoF64.frames_per_pulse (TempoF64.new (F64.of_int 133) (F64.of_int 3)) 48000
      ≠ (TempoF64.frames_per_beat (TempoF64.new (F64.of_int 133) (F64.of_int 3)) 48000).bind
          (fun x =>
            F64.mul (TempoF64.note_type (TempoF64.new (F64.of_int 133) (F64.of_int 3))) x) := by
  decide

/-- C2, amended: for a Tempo with bpm > 0 and any sample rate sr,
frames_per_pulse (sr) is (note_type * 60 * sr) / bpm, computed in doubles in
that order (two products, then the quotient); in exact arithmetic, not in the
rounded arithmetic of doubles, that value is note_type times
frames_per_beat (sr). -/
theorem Tempo_frames_per_pulse_eq (t : Tempo) (t64 : TempoF64) (sr : framecnt_t)
    (hbpm : 0 < Tempo.beats_per_minute t) :
    TempoF64.frames_per_pulse t64 sr
      = ((F64.mul (TempoF64.note_type t64) (F64.of_int 60)).bind
            (fun a => F64.mul a (F64.of_int sr))).bind
          (fun b => F64.div b (TempoF64.beats_per_minute t64)) ∧
    Tempo.frames_per_pulse t sr
        = Tempo.note_type t * 60 * (sr : ℚ) / Tempo.beats_per_minute t ∧
      Tempo.frames_per_pulse t sr = Tempo.note_type t * Tempo.frames_per_beat t sr := by
  have _ := hbpm
  refine ⟨rfl, rfl, ?_⟩
  simp only [Tempo.frames_per_pulse, Tempo.frames_per_beat, Tempo.note_type]
  ring

/-- Instance of the amended C2 at 120 bpm, quarter note, 48000 samples per
second: 96000 samples per pulse, in doubles as in exact arithmetic, four times
the 24000 samples per beat. -/
theorem Tempo_frames_per_pulse_eq_witness :
    (0 : ℚ) < Tempo.beats_per_minute (Tempo.new 120 4) ∧
      TempoF64.frames_per_pulse (TempoF64.new (F64.of_int 120) (F64.of_int 4)) 48000
        = some (F64.of_int 96000) ∧
      Tempo.frames_per_pulse (Tempo.new 120 4) 48000 = 96000 ∧
      Tempo.frames_per_pulse (Tempo.new 120 4) 48000
        = 4 * Tempo.frames_per_beat (Tempo.new 120 4) 48000 := by
  have hpos : (0 : ℚ) < Tempo.beats_per_minute (Tempo.new 120 4) := by
    simp [Tempo.beats_per_minute, Tempo.new]
  have h := Tempo_frames_per_pulse_eq (Tempo.new 120 4)
    (TempoF64.new (F64.of_int 120) (F64.of_int 4)) 48000 hpos
  refine ⟨hpos, ?_, ?_, ?_⟩
  · rw [h.1]
    decide
  · rw [h.2.1]
    norm_num [Tempo.beats_per_minute, Tempo.note_type, Tempo.new]
  · rw [h.2.2]
    simp [Tempo.note_type, Tempo.new]

/-- C3: for a Tempo with note_type > 0, pulses_per_minute () is
bpm / note_type. -/
theorem Tempo_pulses_per_minute_eq (t : Tempo) (hnt : 0 < Tempo.note_type t) :
    Tempo.pulses_per_minute t = Tempo.beats_per_minute t / Tempo.note_type t := by
  have _ := hnt
  rfl

/-- Instances of C3: 60 bpm over a quarter note is 15 pulses per minute and
120 bpm over a quarter note is 30. -/
theorem Tempo_pulses_per_minute_eq_witness :
    (0 : ℚ) < Tempo.note_type (Tempo.new 60 4) ∧
      Tempo.pulses_per_minute (Tempo.new 60 4) = 15 ∧
      Tempo.pulses_per_minute (Tempo.new_quarter 120) = 30 := by
  have h60 : (0 : ℚ) < Tempo.note_type (Tempo.new 60 4) := by
    simp [Tempo.note_type, Tempo.new]
  have h120 : (0 : ℚ) < Tempo.note_type (Tempo.new_quarter 120) := by
    simp [Tempo.note_type, Tempo.new, Tempo.new_quarter]
  refine ⟨h60, ?_, ?_⟩
  · rw [Tempo_pulses_per_minute_eq (Tempo.new 60 4) h60]
    norm_num [Tempo.beats_per_minute, Tempo.note_type, Tempo.new]
  · rw [Tempo_pulses_per_minute_eq (Tempo.new_quarter 120) h120]
    norm_num [Tempo.beats_per_minute, Tempo.note_type, Tempo.new, Tempo.new_quarter]

/-! ## Sections: anchoring -/

/-- C4: a TempoSection or MeterSection constructed from a pulse coordinate is
music-locked and keeps that pulse; one constructed from a frame coordinate is
audio-locked and keeps that frame. -/
theorem section_ctor_lock_style (bbt0 bbt : BBT_Time) (pulse beat qpm bpb note_type : ℚ)
    (frame : framepos_t) (tempo_type : TempoSection.Type_) :
    ((TempoSection.of_pulse bbt0 pulse qpm note_type tempo_type).position_lock_style
        = PositionLockStyle.MusicTime ∧
      (TempoSection.of_pulse bbt0 pulse qpm note_type tempo_type).pulse = pulse) ∧
    ((TempoSection.of_frame bbt0 frame qpm note_type tempo_type).position_lock_style
        = PositionLockStyle.AudioTime ∧
      (TempoSection.of_frame bbt0 frame qpm note_type tempo_type).frame = frame) ∧
    ((MeterSection.of_pulse pulse beat bbt bpb note_type).position_lock_style
        = PositionLockStyle.MusicTime ∧
      (MeterSection.of_pulse pulse beat bbt bpb note_type).pulse = pulse) ∧
    ((MeterSection.of_frame frame beat bpb note_type).position_lock_style
        = PositionLockStyle.AudioTime ∧
      (MeterSection.of_frame frame beat bpb note_type).frame = frame) := by
  refine ⟨⟨rfl, rfl⟩, ⟨rfl, rfl⟩, ⟨rfl, rfl⟩, ⟨rfl, rfl⟩⟩

/-! ## BBT grid points -/

/-- C5: for every BBTPoint, is_bar () is true exactly when its beat is 1. -/
theorem BBTPoint_is_bar_iff (p : TempoMap.BBTPoint) :
    TempoMap.BBTPoint.is_bar p = true ↔ p.beat = 1 := by
  simp [TempoMap.BBTPoint.is_bar]

/-- C6: a BBTPoint built from the meter section at address m, the tempo at
address t, a frame f, a bar b, a beat e and a coefficient c points at m itself
(what is later done to that meter section is seen through the point), holds a
Tempo value equal to what t was when the point was built, with the same
beats_per_minute and note_type (a later set_beats_per_minute on t changes t
and not the value in the point), keeps f, b, e and c, and its bbt () is
(b, e, 0). -/
theorem BBTPoint_ctor_fields (h : Heap) (m t : Nat) (f : framepos_t) (b e : Nat) (c : ℚ) :
    (TempoMap.BBTPoint.new h m t f b e c).meter = m ∧
    (∀ beat : ℚ,
      (Heap.meter_set_beat h m beat).meters (TempoMap.BBTPoint.new h m t f b e c).meter
        = MeterSection.set_beat (h.meters m) beat) ∧
    (TempoMap.BBTPoint.new h m t f b e c).tempo = h.tempos t ∧
    Tempo.beats_per_minute (TempoMap.BBTPoint.new h m t f b e c).tempo
      = Tempo.beats_per_minute (h.tempos t) ∧
    Tempo.note_type (TempoMap.BBTPoint.new h m t f b e c).tempo
      = Tempo.note_type (h.tempos t) ∧
    (∀ bpm : ℚ,
      Tempo.beats_per_minute ((Heap.tempo_set_beats_per_minute h t bpm).tempos t) = bpm ∧
      Tempo.beats_per_minute (TempoMap.BBTPoint.new h m t f b e c).tempo
        = Tempo.beats_per_minute (h.tempos t)) ∧
    (TempoMap.BBTPoint.new h m t f b e c).frame = f ∧
    (TempoMap.BBTPoint.new h m t f b e c).bar = b ∧
    (TempoMap.BBTPoint.new h m t f b e c).beat = e ∧
    (TempoMap.BBTPoint.new h m t f b e c).c = c ∧
    TempoMap.BBTPoint.bbt (TempoMap.BBTPoint.new h m t f b e c) = BBT_Time.mk b e 0 := by
  refine ⟨rfl, ?_, rfl, rfl, rfl, ?_, rfl, rfl, rfl, rfl, rfl⟩
  · intro beat
    simp [Heap.meter_set_beat, TempoMap.BBTPoint.new]
  · intro bpm
    constructor
    · simp [Heap.tempo_set_beats_per_minute, Tempo.set_beats_per_minute,
        Tempo.beats_per_minute]
    · rfl

/-! ## Section invariants -/

/-- C7, as stated, fails: a TempoSection freshly constructed from a pulse, and
one freshly constructed from a frame, has a bar_offset outside [0, 1). -/
theorem TempoSection_fresh_bar_offset_out_of_range :
    ¬ (0 ≤ TempoSection.bar_offset
            (TempoSection.of_pulse (BBT_Time.mk 1 1 0) 0 120 4 TempoSection.Type_.Constant) ∧
        TempoSection.bar_offset
            (TempoSection.of_pulse (BBT_Time.mk 1 1 0) 0 120 4 TempoSection.Type_.Constant) < 1) ∧
    ¬ (0 ≤ TempoSection.bar_offset
            (TempoSection.of_frame (BBT_Time.mk 1 1 0) 0 120 4 TempoSection.Type_.Constant) ∧
        TempoSection.bar_offset
            (TempoSection.of_frame (BBT_Time.mk 1 1 0) 0 120 4 TempoSection.Type_.Constant) < 1) := by
  constructor <;>
    norm_num [TempoSection.bar_offset, TempoSection.of_pulse, TempoSection.of_frame]

/-- C7, amended: a TempoSection freshly constructed from a pulse or from a
frame has bar_offset = -1, which is below 1 and below 0; set_c_func,
set_active, set_pulse and set_frame leave bar_offset as it is. -/
theorem TempoSection_bar_offset_fresh (bbt0 : BBT_Time) (pulse qpm note_type : ℚ)
    (frame : framepos_t) (tempo_type : TempoSection.Type_) (s : TempoSection) (x : ℚ)
    (yn : Bool) :
    TempoSection.bar_offset (TempoSection.of_pulse bbt0 pulse qpm note_type tempo_type) = -1 ∧
    TempoSection.bar_offset (TempoSection.of_frame bbt0 frame qpm note_type tempo_type) = -1 ∧
    TempoSection.bar_offset (TempoSection.of_pulse bbt0 pulse qpm note_type tempo_type) < 0 ∧
    TempoSection.bar_offset (TempoSection.of_frame bbt0 frame qpm note_type tempo_type) < 0 ∧
    TempoSection.bar_offset (TempoSection.set_c_func s x) = TempoSection.bar_offset s ∧
    TempoSection.bar_offset (TempoSection.set_active s yn) = TempoSection.bar_offset s ∧
    TempoSection.bar_offset (TempoSection.set_pulse s x) = TempoSection.bar_offset s ∧
    TempoSection.bar_offset (TempoSection.set_frame s frame) = TempoSection.bar_offset s := by
  refine ⟨rfl, rfl, ?_, ?_, rfl, rfl, rfl, rfl⟩ <;>
    norm_num [TempoSection.bar_offset, TempoSection.of_pulse, TempoSection.of_frame]

/-- C8, as stated, fails: the pulse constructor given the bbt (1, 2, 0) yields
a MeterSection whose bbt is not on a bar boundary, and set_beat with the pair
(0, (1, 2, 0)) takes a MeterSection whose bbt is on a bar boundary to one
whose bbt is not. -/
theorem MeterSection_bbt_off_bar_boundary :
    ¬ BBT_on_bar_boundary (MeterSection.bbt (MeterSection.of_pulse 0 0 (BBT_Time.mk 1 2 0) 4 4)) ∧
    BBT_on_bar_boundary (MeterSection.bbt (MeterSection.of_frame 0 0 4 4)) ∧
    ¬ BBT_on_bar_boundary
        (MeterSection.bbt
          (MeterSection.set_beat_pair (MeterSection.of_frame 0 0 4 4) (0, BBT_Time.mk 1 2 0))) := by
  simp [BBT_on_bar_boundary, MeterSection.bbt, MeterSection.of_pulse, MeterSection.of_frame,
    MeterSection.set_beat_pair]

/-- C8, amended: the frame constructor gives the bbt (1, 1, 0), which is on a
bar boundary; the pulse constructor and set_beat on a pair store the bbt they
are handed, so the resulting bbt is on a bar boundary exactly when the bbt
handed in is; set_beat on a double, set_pulse and set_frame leave the bbt as
it is. -/
theorem MeterSection_bbt_bar_boundary (pulse beat bpb note_type : ℚ) (frame : framepos_t)
    (bbt : BBT_Time) (s : MeterSection) (w : ℚ × BBT_Time) :
    MeterSection.bbt (MeterSection.of_frame frame beat bpb note_type) = BBT_Time.mk 1 1 0 ∧
    BBT_on_bar_boundary (MeterSection.bbt (MeterSection.of_frame frame beat bpb note_type)) ∧
    MeterSection.bbt (MeterSection.of_pulse pulse beat bbt bpb note_type) = bbt ∧
    (BBT_on_bar_boundary (MeterSection.bbt (MeterSection.of_pulse pulse beat bbt bpb note_type))
      ↔ BBT_on_bar_boundary bbt) ∧
    MeterSection.bbt (MeterSection.set_beat_pair s w) = w.2 ∧
    (BBT_on_bar_boundary (MeterSection.bbt (MeterSection.set_beat_pair s w))
      ↔ BBT_on_bar_boundary w.2) ∧
    MeterSection.bbt (MeterSection.set_beat s beat) = MeterSection.bbt s ∧
    MeterSection.bbt (MeterSection.set_pulse s pulse) = MeterSection.bbt s ∧
    MeterSection.bbt (MeterSection.set_frame s frame) = MeterSection.bbt s := by
  refine ⟨rfl, ?_, rfl, Iff.rfl, rfl, Iff.rfl, rfl, rfl, rfl⟩
  simp [BBT_on_bar_boundary, MeterSection.bbt, MeterSection.of_frame]

/-- C9, as stated, fails: the pulse constructor accepts -1 and yields a section
with a negative pulse, the frame constructor accepts -1 and yields a section
with a negative frame, and set_pulse (-1) and set_frame (-1) take a section
with both coordinates non-negative to one with a negative coordinate. -/
theorem MetricSection_negative_coords :
    ¬ MetricSection_coords_nonneg (MetricSection.of_pulse (-1)) ∧
    ¬ MetricSection_coords_nonneg (MetricSection.of_frame (-1)) ∧
    MetricSection_coords_nonneg (MetricSection.of_pulse 0) ∧
    ¬ MetricSection_coords_nonneg (MetricSection.set_pulse (MetricSection.of_pulse 0) (-1)) ∧
    ¬ MetricSection_coords_nonneg (MetricSection.set_frame (MetricSection.of_pulse 0) (-1)) := by
  simp [MetricSection_coords_nonneg, MetricSection.of_pulse, MetricSection.of_frame,
    MetricSection.set_pulse, MetricSection.set_frame, MetricSection.pulse, MetricSection.frame]

/-- C9, amended: a MetricSection has pulse >= 0 and frame >= 0 after the pulse
constructor exactly when the pulse handed in is >= 0, and after the frame
constructor exactly when the frame handed in is >= 0 (the same for the
TempoSection and MeterSection constructors built on them); set_pulse and
set_frame store their argument and leave the other coordinate alone, so after
them the property holds exactly when the argument is >= 0 and the other
coordinate was. -/
theorem MetricSection_coords_nonneg_iff (bbt0 bbt : BBT_Time) (pulse beat qpm bpb note_type : ℚ)
    (frame : framepos_t) (tempo_type : TempoSection.Type_) (s : MetricSection) :
    (MetricSection_coords_nonneg (MetricSection.of_pulse pulse) ↔ 0 ≤ pulse) ∧
    (MetricSection_coords_nonneg (MetricSection.of_frame frame) ↔ 0 ≤ frame) ∧
    (MetricSection_coords_nonneg
        (TempoSection.of_pulse bbt0 pulse qpm note_type tempo_type).toMetricSection
      ↔ 0 ≤ pulse) ∧
    (MetricSection_coords_nonneg
        (TempoSection.of_frame bbt0 frame qpm note_type tempo_type).toMetricSection
      ↔ 0 ≤ frame) ∧
    (MetricSection_coords_nonneg (MeterSection.of_pulse pulse beat bbt bpb note_type).toMetricSection
      ↔ 0 ≤ pulse) ∧
    (MetricSection_coords_nonneg (MeterSection.of_frame frame beat bpb note_type).toMetricSection
      ↔ 0 ≤ frame) ∧
    (MetricSection_coords_nonneg (MetricSection.set_pulse s pulse)
      ↔ 0 ≤ pulse ∧ 0 ≤ MetricSection.frame s) ∧
    (MetricSection_coords_nonneg (MetricSection.set_frame s frame)
      ↔ 0 ≤ MetricSection.pulse s ∧ 0 ≤ frame) := by
  simp [MetricSection_coords_nonneg, MetricSection.of_pulse, MetricSection.of_frame,
    TempoSection.of_pulse, TempoSection.of_frame, MeterSection.of_pulse, MeterSection.of_frame,
    MetricSection.set_pulse, MetricSection.set_frame, MetricSection.pulse, MetricSection.frame]

/-- C10, as stated, fails: set_c_func (1/4) on a freshly constructed Constant
section leaves its type Constant and makes get_c_func () return 1/4, not 0. -/
theorem TempoSection_constant_nonzero_c :
    TempoSection.type
        (TempoSection.set_c_func
          (TempoSection.of_pulse (BBT_Time.mk 1 1 0) 0 120 4 TempoSection.Type_.Constant) (1 / 4))
      = TempoSection.Type_.Constant ∧
    TempoSection.get_c_func
        (TempoSection.set_c_func
          (TempoSection.of_pulse (BBT_Time.mk 1 1 0) 0 120 4 TempoSection.Type_.Constant) (1 / 4))
      = 1 / 4 ∧
    ¬ TempoSection.get_c_func
        (TempoSection.set_c_func
          (TempoSection.of_pulse (BBT_Time.mk 1 1 0) 0 120 4 TempoSection.Type_.Constant) (1 / 4))
      = 0 := by
  refine ⟨rfl, rfl, ?_⟩
  norm_num [TempoSection.get_c_func, TempoSection.set_c_func]

/-- C10, amended: get_c_func () returns 0 for a section freshly constructed
from a pulse or from a frame (of either type); set_active, set_pulse and
set_frame leave both the type and c as they are, so a Constant section with
c = 0 keeps c = 0 under them; set_c_func (x) leaves the type and makes c equal
to x, so after it c = 0 exactly when x = 0. -/
theorem TempoSection_c_func_header_ops (bbt0 : BBT_Time) (pulse qpm note_type x : ℚ)
    (frame : framepos_t) (tempo_type : TempoSection.Type_) (s : TempoSection) (yn : Bool) :
    TempoSection.get_c_func (TempoSection.of_pulse bbt0 pulse qpm note_type tempo_type) = 0 ∧
    TempoSection.get_c_func (TempoSection.of_frame bbt0 frame qpm note_type tempo_type) = 0 ∧
    TempoSection.type (TempoSection.of_pulse bbt0 pulse qpm note_type tempo_type) = tempo_type ∧
    TempoSection.type (TempoSection.of_frame bbt0 frame qpm note_type tempo_type) = tempo_type ∧
    (TempoSection.type (TempoSection.set_active s yn) = TempoSection.type s ∧
      TempoSection.get_c_func (TempoSection.set_active s yn) = TempoSection.get_c_func s) ∧
    (TempoSection.type (TempoSection.set_pulse s pulse) = TempoSection.type s ∧
      TempoSection.get_c_func (TempoSection.set_pulse s pulse) = TempoSection.get_c_func s) ∧
    (TempoSection.type (TempoSection.set_frame s frame) = TempoSection.type s ∧
      TempoSection.get_c_func (TempoSection.set_frame s frame) = TempoSection.get_c_func s) ∧
    (TempoSection.type (TempoSection.set_c_func s x) = TempoSection.type s ∧
      TempoSection.get_c_func (TempoSection.set_c_func s x) = x ∧
      (TempoSection.get_c_func (TempoSection.set_c_func s x) = 0 ↔ x = 0)) := by
  exact ⟨rfl, rfl, rfl, rfl, ⟨rfl, rfl⟩, ⟨rfl, rfl⟩, ⟨rfl, rfl⟩, ⟨rfl, rfl, Iff.rfl⟩⟩

/-! ## TempoMetric: set_metric -/

/-- C14: set_metric (section) always sets the frame and pulse of the metric to
those of the section; for a MeterSection it makes the meter pointer point at
the section and leaves the tempo pointer as it was, for a TempoSection it makes
the tempo pointer point at the section and leaves the meter pointer as it was
(and for a section that is neither, both pointers stay). -/
theorem TempoMetric_set_metric_frame (tm : TempoMetric) (a : Nat) (m : MeterSection)
    (t : TempoSection) (s : MetricSection) (sec : MetricSectionPtr) :
    (TempoMetric.frame (TempoMetric.set_metric tm sec) = MetricSection.frame sec.obj.base ∧
      TempoMetric.pulse (TempoMetric.set_metric tm sec) = MetricSection.pulse sec.obj.base) ∧
    (TempoMetric.meter (TempoMetric.set_metric tm (MetricSectionPtr.mk a (MetricSectionObj.meter m)))
        = a ∧
      TempoMetric.tempo (TempoMetric.set_metric tm (MetricSectionPtr.mk a (MetricSectionObj.meter m)))
        = TempoMetric.tempo tm ∧
      TempoMetric.frame (TempoMetric.set_metric tm (MetricSectionPtr.mk a (MetricSectionObj.meter m)))
        = MetricSection.frame m.toMetricSection ∧
      TempoMetric.pulse (TempoMetric.set_metric tm (MetricSectionPtr.mk a (MetricSectionObj.meter m)))
        = MetricSection.pulse m.toMetricSection) ∧
    (TempoMetric.tempo (TempoMetric.set_metric tm (MetricSectionPtr.mk a (MetricSectionObj.tempo t)))
        = a ∧
      TempoMetric.meter (TempoMetric.set_metric tm (MetricSectionPtr.mk a (MetricSectionObj.tempo t)))
        = TempoMetric.meter tm ∧
      TempoMetric.frame (TempoMetric.set_metric tm (MetricSectionPtr.mk a (MetricSectionObj.tempo t)))
        = MetricSection.frame t.toMetricSection ∧
      TempoMetric.pulse (TempoMetric.set_metric tm (MetricSectionPtr.mk a (MetricSectionObj.tempo t)))
        = MetricSection.pulse t.toMetricSection) ∧
    (TempoMetric.meter (TempoMetric.set_metric tm (MetricSectionPtr.mk a (MetricSectionObj.other s)))
        = TempoMetric.meter tm ∧
      TempoMetric.tempo (TempoMetric.set_metric tm (MetricSectionPtr.mk a (MetricSectionObj.other s)))
        = TempoMetric.tempo tm) := by
  refine ⟨⟨rfl, rfl⟩, ⟨rfl, rfl, rfl, rfl⟩, ⟨rfl, rfl, rfl, rfl⟩, ⟨rfl, rfl⟩⟩

/-! ## SlavableAutomationControl: values -/

/-- The loop `v *= master value * ratio` over the masters multiplies the
starting value by the product of the factors. -/
theorem Masters_foldl_mul (gv : AutomationControlPtr → ℚ) (ms : Masters) (v : ℚ) :
    ms.foldl (fun v mr => v * (gv (MasterRecord.master mr.2) * MasterRecord.ratio mr.2)) v
      = v * (ms.map (fun mr => gv (MasterRecord.master mr.2) * MasterRecord.ratio mr.2)).prod := by
  induction ms generalizing v with
  | nil => simp
  | cons p ps ih =>
    simp only [List.foldl_cons, List.map_cons, List.prod_cons]
    rw [ih]
    ring

/-- C12: for a toggled control with at least one master, get_value_locked
returns the upper value of the descriptor if the own value of the control is
non-zero or the value of some master is non-zero, and the lower value
otherwise. -/
theorem get_value_locked_toggled (c : SlavableAutomationControl)
    (gv : AutomationControlPtr → ℚ) (htog : c._desc.toggled = true) (hne : c._masters ≠ []) :
    ((Control.get_double c false ≠ 0 ∨
        ∃ mr ∈ c._masters, gv (MasterRecord.master mr.2) ≠ 0) →
      SlavableAutomationControl.get_value_locked c gv = c._desc.upper) ∧
    (¬ (Control.get_double c false ≠ 0 ∨
        ∃ mr ∈ c._masters, gv (MasterRecord.master mr.2) ≠ 0) →
      SlavableAutomationControl.get_value_locked c gv = c._desc.lower) := by
  have hemp : c._masters.isEmpty = false := by
    cases hms : c._masters with
    | nil => exact absurd hms hne
    | cons p ps => rfl
  by_cases hown : Control.get_double c false = 0
  · by_cases hany : ∃ mr ∈ c._masters, gv (MasterRecord.master mr.2) ≠ 0
    · constructor
      · intro _
        have hb : c._masters.any (fun mr => gv (MasterRecord.master mr.2) != 0) = true := by
          rw [List.any_eq_true]
          obtain ⟨mr, hmem, hv⟩ := hany
          exact ⟨mr, hmem, by simpa using hv⟩
        simp [SlavableAutomationControl.get_value_locked,
          SlavableAutomationControl.get_masters_value_locked, hemp, htog, hown, hb]
      · intro hno
        exact absurd (Or.inr hany) hno
    · constructor
      · intro hyes
        rcases hyes with h1 | h2
        · exact absurd hown h1
        · exact absurd h2 hany
      · intro _
        have hb : c._masters.any (fun mr => gv (MasterRecord.master mr.2) != 0) = false := by
          rw [Bool.eq_false_iff]
          intro ht
          rw [List.any_eq_true] at ht
          obtain ⟨mr, hmem, hv⟩ := ht
          exact hany ⟨mr, hmem, by simpa using hv⟩
        simp [SlavableAutomationControl.get_value_locked,
          SlavableAutomationControl.get_masters_value_locked, hemp, htog, hown, hb]
  · constructor
    · intro _
      simp [SlavableAutomationControl.get_value_locked, hemp, htog, hown]
    · intro hno
      exact absurd (Or.inl hown) hno

/-- Instances of C12 on a toggled control with own value 0 and one master:
a master at 3 gives the upper value 1, a master at 0 gives the lower value 0. -/
theorem get_value_locked_toggled_witness :
    SlavableAutomationControl.get_value_locked sample_toggled (fun _ => 3) = 1 ∧
    SlavableAutomationControl.get_value_locked sample_toggled (fun _ => 0) = 0 := by
  have hne : sample_toggled._masters ≠ [] := by simp [sample_toggled]
  constructor
  · have h := (get_value_locked_toggled sample_toggled (fun _ => 3) rfl hne).1
    rw [h]
    · rfl
    · right
      exact ⟨(7, MasterRecord.mk (AutomationControlPtr.mk 7) 1), by simp [sample_toggled],
        by norm_num⟩
  · have h := (get_value_locked_toggled sample_toggled (fun _ => 0) rfl hne).2
    rw [h]
    · rfl
    · simp [Control.get_double, sample_toggled]

/-- C15: for a non-toggled control get_masters_value_locked returns
min (upper, normal * product over the masters of (master value * ratio)); so
the result never exceeds upper, it is min (upper, normal) when there are no
masters, and it is not bounded below by lower: a control with lower 1/2 <=
upper 2 and one master at 1/4 gives 1/4. -/
theorem get_masters_value_locked_not_toggled (c : SlavableAutomationControl)
    (gv : AutomationControlPtr → ℚ) (htog : c._desc.toggled = false) :
    SlavableAutomationControl.get_masters_value_locked c gv
      = min c._desc.upper
          (c._desc.normal *
            (c._masters.map
              (fun mr => gv (MasterRecord.master mr.2) * MasterRecord.ratio mr.2)).prod) ∧
    SlavableAutomationControl.get_masters_value_locked c gv ≤ c._desc.upper ∧
    SlavableAutomationControl.get_masters_value_locked
        (SlavableAutomationControl.mk c._desc [] c._user_value c._list_playback c._list_value
          c.MasterStatusChange_count c._session_dirty) gv
      = min c._desc.upper c._desc.normal ∧
    (sample_ranged._desc.toggled = false ∧
      sample_ranged._desc.lower ≤ sample_ranged._desc.upper ∧
      SlavableAutomationControl.get_masters_value_locked sample_ranged (fun _ => 1 / 4)
        < sample_ranged._desc.lower) := by
  have hmain : SlavableAutomationControl.get_masters_value_locked c gv
      = min c._desc.upper
          (c._desc.normal *
            (c._masters.map
              (fun mr => gv (MasterRecord.master mr.2) * MasterRecord.ratio mr.2)).prod) := by
    simp only [SlavableAutomationControl.get_masters_value_locked, htog, Masters_foldl_mul]
    simp
  refine ⟨hmain, ?_, ?_, rfl, ?_, ?_⟩
  · rw [hmain]
    exact min_le_left _ _
  · simp [SlavableAutomationControl.get_masters_value_locked, htog]
  · norm_num [sample_ranged]
  · norm_num [SlavableAutomationControl.get_masters_value_locked, sample_ranged,
      MasterRecord.master, MasterRecord.ratio]

/-- Instance of C15 on a control with normal 1, upper 2 and one master of
ratio 1: a master at 3/2 gives 3/2, a master at 5 gives the upper value 2. -/
theorem get_masters_value_locked_not_toggled_witness :
    SlavableAutomationControl.get_masters_value_locked sample_ranged (fun _ => 3 / 2) = 3 / 2 ∧
    SlavableAutomationControl.get_masters_value_locked sample_ranged (fun _ => 5) = 2 := by
  constructor
  · rw [(get_masters_value_locked_not_toggled sample_ranged (fun _ => 3 / 2) rfl).1]
    norm_num [sample_ranged, MasterRecord.master, MasterRecord.ratio]
  · rw [(get_masters_value_locked_not_toggled sample_ranged (fun _ => 5) rfl).1]
    norm_num [sample_ranged, MasterRecord.master, MasterRecord.ratio]

/-- C16: for a descriptor with lower <= upper, the value that
actually_set_value hands to AutomationControl::actually_set_value (where it
becomes the stored value) and, when there are masters, to
recompute_masters_ratios is the requested value clamped into [lower, upper]:
lower when val < lower, upper when val > upper, and val otherwise. -/
theorem actually_set_value_clamps (R : ℚ → Masters → Masters) (c : SlavableAutomationControl)
    (val : ℚ) (hle : c._desc.lower ≤ c._desc.upper) :
    SlavableAutomationControl.actually_set_value_val c val
      = (if val < c._desc.lower then c._desc.lower
          else if c._desc.upper < val then c._desc.upper else val) ∧
    c._desc.lower ≤ SlavableAutomationControl.actually_set_value_val c val ∧
    SlavableAutomationControl.actually_set_value_val c val ≤ c._desc.upper ∧
    (SlavableAutomationControl.actually_set_value R c val)._user_value
      = SlavableAutomationControl.actually_set_value_val c val ∧
    SlavableAutomationControl.actually_set_value R c val
      = SlavableAutomationControl.mk c._desc
          (if c._masters.isEmpty then c._masters
            else R (SlavableAutomationControl.actually_set_value_val c val) c._masters)
          (SlavableAutomationControl.actually_set_value_val c val) c._list_playback
          c._list_value c.MasterStatusChange_count true := by
  refine ⟨?_, ?_, ?_, ?_, ?_⟩
  · unfold SlavableAutomationControl.actually_set_value_val
    by_cases h1 : val < c._desc.lower
    · rw [if_pos h1, min_eq_left (le_trans (le_of_lt h1) hle), max_eq_right (le_of_lt h1)]
    · rw [if_neg h1]
      by_cases h2 : c._desc.upper < val
      · rw [if_pos h2, min_eq_right (le_of_lt h2), max_eq_left hle]
      · rw [if_neg h2, min_eq_left (not_lt.mp h2), max_eq_left (not_lt.mp h1)]
  · exact le_max_right _ _
  · exact max_le (min_le_right _ _) hle
  · cases hms : c._masters <;>
      simp [SlavableAutomationControl.actually_set_value, AutomationControl.actually_set_value,
        hms]
  · cases hms : c._masters <;>
      simp [SlavableAutomationControl.actually_set_value, AutomationControl.actually_set_value,
        hms]

/-- Instances of C16 on a descriptor with lower 1/2 and upper 2: 5 is stored
as 2, 0 as 1/2 and 1 as 1. -/
theorem actually_set_value_clamps_witness :
    (SlavableAutomationControl.actually_set_value sample_hook sample_ranged 5)._user_value = 2 ∧
    (SlavableAutomationControl.actually_set_value sample_hook sample_ranged 0)._user_value
      = 1 / 2 ∧
    (SlavableAutomationControl.actually_set_value sample_hook sample_ranged 1)._user_value = 1 := by
  have hle : sample_ranged._desc.lower ≤ sample_ranged._desc.upper := by
    norm_num [sample_ranged]
  refine ⟨?_, ?_, ?_⟩
  · rw [(actually_set_value_clamps sample_hook sample_ranged 5 hle).2.2.2.1,
      (actually_set_value_clamps sample_hook sample_ranged 5 hle).1]
    norm_num [sample_ranged]
  · rw [(actually_set_value_clamps sample_hook sample_ranged 0 hle).2.2.2.1,
      (actually_set_value_clamps sample_hook sample_ranged 0 hle).1]
    norm_num [sample_ranged]
  · rw [(actually_set_value_clamps sample_hook sample_ranged 1 hle).2.2.2.1,
      (actually_set_value_clamps sample_hook sample_ranged 1 hle).1]
    norm_num [sample_ranged]

/-! ## SlavableAutomationControl: the map of masters -/

/-- A key is found in the map exactly when it is among its keys. -/
theorem Masters_find_isSome_iff (ms : Masters) (k : Nat) :
    (Masters.find ms k).isSome = true ↔ k ∈ Masters.keys ms := by
  induction ms with
  | nil => simp [Masters.find, Masters.keys]
  | cons p ps ih =>
    obtain ⟨pk, pr⟩ := p
    by_cases h : k = pk
    · subst h
      simp [Masters.find, Masters.keys, List.lookup_cons]
    · have hb : (k == pk) = false := by simpa using h
      simp only [Masters.find, Masters.keys, List.lookup_cons, hb, List.map_cons,
        List.mem_cons, h, false_or]
      exact ih

/-- Two maps with the same keys answer `find` alike, as far as presence goes. -/
theorem Masters_find_isSome_congr (ms ms2 : Masters) (k : Nat)
    (h : Masters.keys ms = Masters.keys ms2) :
    (Masters.find ms k).isSome = (Masters.find ms2 k).isSome := by
  rw [Bool.eq_iff_iff, Masters_find_isSome_iff, Masters_find_isSome_iff, h]

/-- A map without keys is empty. -/
theorem Masters_keys_eq_nil (ms : Masters) (h : Masters.keys ms = []) : ms = [] := by
  cases ms with
  | nil => rfl
  | cons p ps => simp [Masters.keys] at h

/-- After `erase (k)` the key `k` is not in the map. -/
theorem Masters_erase_not_mem (ms : Masters) (k : Nat) :
    k ∉ Masters.keys (Masters.erase ms k).1 := by
  simp [Masters.keys, Masters.erase]

/-- Placing a record in key order adds its key to the keys, once. -/
theorem Masters_insert_sorted_keys (ms : Masters) (k : Nat) (r : MasterRecord) :
    List.Perm (Masters.keys (Masters.insert_sorted k r ms)) (k :: Masters.keys ms) := by
  induction ms with
  | nil => simp [Masters.insert_sorted, Masters.keys]
  | cons p ps ih =>
    by_cases h : k < p.1
    · simp [Masters.insert_sorted, Masters.keys, h]
    · simp only [Masters.insert_sorted, h, if_false, Masters.keys, List.map_cons]
      exact List.Perm.trans (List.Perm.cons p.1 ih) (List.Perm.swap k p.1 _)

/-- A record placed under a key that was absent is the one found under it. -/
theorem Masters_insert_sorted_find (ms : Masters) (k : Nat) (r : MasterRecord)
    (h : k ∉ Masters.keys ms) : Masters.find (Masters.insert_sorted k r ms) k = some r := by
  induction ms with
  | nil => simp [Masters.insert_sorted, Masters.find, List.lookup_cons]
  | cons p ps ih =>
    obtain ⟨pk, pr⟩ := p
    have hne : k ≠ pk := by
      intro he
      apply h
      simp [Masters.keys, he]
    have hps : k ∉ Masters.keys ps := by
      intro hm
      apply h
      simp only [Masters.keys, List.map_cons, List.mem_cons]
      exact Or.inr hm
    have hb : (k == pk) = false := by simpa using hne
    by_cases hlt : k < pk
    · simp [Masters.insert_sorted, Masters.find, List.lookup_cons, hlt]
    · simp only [Masters.insert_sorted, hlt, if_false, Masters.find, List.lookup_cons, hb]
      exact ih hps

/-- With a hook that keeps the keys, actually_set_value keeps the keys. -/
theorem actually_set_value_keys (R : ℚ → Masters → Masters) (hR : RecomputeKeepsKeys R)
    (c : SlavableAutomationControl) (val : ℚ) :
    Masters.keys (SlavableAutomationControl.actually_set_value R c val)._masters
      = Masters.keys c._masters := by
  cases hms : c._masters <;>
    simp [SlavableAutomationControl.actually_set_value, AutomationControl.actually_set_value,
      hms, hR _ _]

/-- With a hook that keeps the keys, the keys after remove_master are those
left by the erasure. -/
theorem remove_master_keys (R : ℚ → Masters → Masters) (hR : RecomputeKeepsKeys R)
    (gv : AutomationControlPtr → ℚ) (c : SlavableAutomationControl) (m : AutomationControlPtr) :
    Masters.keys (SlavableAutomationControl.remove_master R gv c m)._masters
      = Masters.keys (Masters.erase c._masters m.id).1 := by
  simp only [SlavableAutomationControl.remove_master]
  split_ifs <;> simp [actually_set_value_keys R hR, hR _ _]

/-! ## SlavableAutomationControl: losing a master -/

/-- A master that is not alive has no record in a map whose records hold
live masters under their own ids. -/
theorem MastersAlive_not_found (alive : AutomationControlPtr → Bool)
    (c : SlavableAutomationControl) (m : AutomationControlPtr) (hinv : MastersAlive alive c)
    (hdead : alive m = false) : (Masters.find c._masters m.id).isSome = false := by
  rw [Bool.eq_false_iff]
  intro ht
  have hmem := (Masters_find_isSome_iff _ _).mp ht
  simp only [Masters.keys, List.mem_map] at hmem
  obtain ⟨p, hp, hpk⟩ := hmem
  obtain ⟨hid, hal⟩ := hinv p hp
  have hsame : MasterRecord.master p.2 = m := by
    cases hmm : MasterRecord.master p.2 with
    | mk i =>
      cases m with
      | mk k =>
        rw [hmm] at hid
        simp only at hid hpk
        rw [hid, hpk]
  rw [hsame, hdead] at hal
  exact Bool.false_ne_true hal

/-- C11: when master_going_away is called for a master, slaved_to (m) is false
for that master afterwards, whether or not the weak reference to it can still
be locked: if it can, remove_master erases its record (the hook
recompute_masters_ratios keeping the keys of the map); if it cannot, the
master is gone, and since every record of the map holds a live master under
its own id there was no record of it, and nothing is changed. -/
theorem master_going_away_not_slaved (R : ℚ → Masters → Masters) (hR : RecomputeKeepsKeys R)
    (gv : AutomationControlPtr → ℚ) (alive : AutomationControlPtr → Bool)
    (c : SlavableAutomationControl) (wm : AutomationControlPtr)
    (hinv : MastersAlive alive c) :
    SlavableAutomationControl.slaved_to
        (SlavableAutomationControl.master_going_away R gv alive c wm) wm = false ∧
    (alive wm = true →
      SlavableAutomationControl.master_going_away R gv alive c wm
        = SlavableAutomationControl.remove_master R gv c wm) ∧
    (alive wm = false →
      SlavableAutomationControl.master_going_away R gv alive c wm = c) := by
  refine ⟨?_, ?_, ?_⟩
  · cases hal : alive wm with
    | true =>
      have hrm : SlavableAutomationControl.master_going_away R gv alive c wm
          = SlavableAutomationControl.remove_master R gv c wm := by
        simp [SlavableAutomationControl.master_going_away,
          SlavableAutomationControl.weak_ptr_lock, hal]
      rw [hrm, Bool.eq_false_iff]
      intro ht
      have hmem := (Masters_find_isSome_iff _ _).mp ht
      rw [remove_master_keys R hR] at hmem
      exact Masters_erase_not_mem _ _ hmem
    | false =>
      have hsame : SlavableAutomationControl.master_going_away R gv alive c wm = c := by
        simp [SlavableAutomationControl.master_going_away,
          SlavableAutomationControl.weak_ptr_lock, hal]
      rw [hsame]
      exact MastersAlive_not_found alive c wm hinv hal
  · intro hal
    simp [SlavableAutomationControl.master_going_away, SlavableAutomationControl.weak_ptr_lock,
      hal]
  · intro hal
    simp [SlavableAutomationControl.master_going_away, SlavableAutomationControl.weak_ptr_lock,
      hal]

/-- Instances of C11 with a hook that does nothing, on a control whose only
master has id 7.  With every control alive, the master of id 7 is found
before master_going_away runs for it and not after.  With only the control of
id 7 alive, master_going_away for the dead control of id 9 leaves the state
as it is, and that control is not found. -/
theorem master_going_away_not_slaved_witness :
    RecomputeKeepsKeys sample_hook ∧
    MastersAlive (fun _ => true) sample_ranged ∧
    SlavableAutomationControl.slaved_to sample_ranged (AutomationControlPtr.mk 7) = true ∧
    SlavableAutomationControl.slaved_to
        (SlavableAutomationControl.master_going_away sample_hook (fun _ => 1) (fun _ => true)
          sample_ranged (AutomationControlPtr.mk 7))
        (AutomationControlPtr.mk 7)
      = false ∧
    MastersAlive (fun p => decide (p.id = 7)) sample_ranged ∧
    SlavableAutomationControl.slaved_to
        (SlavableAutomationControl.master_going_away sample_hook (fun _ => 1)
          (fun p => decide (p.id = 7)) sample_ranged (AutomationControlPtr.mk 9))
        (AutomationControlPtr.mk 9)
      = false := by
  have hR : RecomputeKeepsKeys sample_hook := fun _ _ => rfl
  have h1 : MastersAlive (fun _ => true) sample_ranged := by
    intro p hp
    simp only [sample_ranged, List.mem_singleton] at hp
    subst hp
    exact ⟨rfl, rfl⟩
  have h2 : MastersAlive (fun p => decide (p.id = 7)) sample_ranged := by
    intro p hp
    simp only [sample_ranged, List.mem_singleton] at hp
    subst hp
    exact ⟨rfl, rfl⟩
  exact ⟨hR, h1, rfl,
    (master_going_away_not_slaved sample_hook hR (fun _ => 1) (fun _ => true) sample_ranged
      (AutomationControlPtr.mk 7) h1).1,
    h2,
    (master_going_away_not_slaved sample_hook hR (fun _ => 1) (fun p => decide (p.id = 7))
      sample_ranged (AutomationControlPtr.mk 9) h2).1⟩

/-- C13 at the failing input: a non-toggled control with lower 1/2, upper 2,
normal 1, no automation playback and a single master of ratio 1 whose value is
1/4 has the effective value 1/4; once remove_master has removed that master
its effective value is 1/2 (for every hook recompute_masters_ratios that keeps
the keys of the map). -/
theorem remove_master_last_changes_value (R : ℚ → Masters → Masters)
    (hR : RecomputeKeepsKeys R) :
    SlavableAutomationControl.get_value sample_ranged (fun _ => 1 / 4) = 1 / 4 ∧
    SlavableAutomationControl.get_value
        (SlavableAutomationControl.remove_master R (fun _ => 1 / 4) sample_ranged
          (AutomationControlPtr.mk 7))
        (fun _ => 1 / 4)
      = 1 / 2 := by
  have hnil : R (1 / 4) [] = [] := Masters_keys_eq_nil _ (by rw [hR]; rfl)
  have hcur : SlavableAutomationControl.get_value_locked sample_ranged (fun _ => 1 / 4)
      = 1 / 4 := by
    norm_num [SlavableAutomationControl.get_value_locked,
      SlavableAutomationControl.get_masters_value_locked, sample_ranged, MasterRecord.master,
      MasterRecord.ratio]
  constructor
  · simp only [SlavableAutomationControl.get_value]
    rw [show sample_ranged._list_playback = false from rfl]
    simpa using hcur
  · simp only [SlavableAutomationControl.remove_master, hcur]
    norm_num [sample_ranged, Masters.erase, hnil, SlavableAutomationControl.get_value,
      SlavableAutomationControl.get_value_locked, Control.get_double,
      SlavableAutomationControl.actually_set_value,
      SlavableAutomationControl.actually_set_value_val, AutomationControl.actually_set_value]

/-- Instance of the evaluation of C13 with a hook that does nothing. -/
theorem remove_master_last_changes_value_witness :
    RecomputeKeepsKeys sample_hook ∧
    SlavableAutomationControl.get_value
        (SlavableAutomationControl.remove_master sample_hook (fun _ => 1 / 4) sample_ranged
          (AutomationControlPtr.mk 7))
        (fun _ => 1 / 4)
      = 1 / 2 :=
  ⟨fun _ _ => rfl, (remove_master_last_changes_value sample_hook (fun _ _ => rfl)).2⟩

/-- Where C13 does hold: when remove_master removes the only master of a
control that is not playing automation, the descriptor has lower <= upper, the
hook keeps the keys of the map, and the effective value before the call is not
below lower, the effective value after the call is the one before it. -/
theorem remove_master_last_keeps_value (R : ℚ → Masters → Masters) (hR : RecomputeKeepsKeys R)
    (gv : AutomationControlPtr → ℚ) (c : SlavableAutomationControl) (m : AutomationControlPtr)
    (r : MasterRecord) (hms : c._masters = [(m.id, r)]) (hplay : c._list_playback = false)
    (hle : c._desc.lower ≤ c._desc.upper)
    (hlow : c._desc.lower ≤ SlavableAutomationControl.get_value c gv) :
    SlavableAutomationControl.get_value (SlavableAutomationControl.remove_master R gv c m) gv
      = SlavableAutomationControl.get_value c gv := by
  have hgv : SlavableAutomationControl.get_value c gv
      = SlavableAutomationControl.get_value_locked c gv := by
    simp [SlavableAutomationControl.get_value, hplay]
  rw [hgv] at hlow
  have hup : SlavableAutomationControl.get_value_locked c gv ≤ c._desc.upper := by
    simp only [SlavableAutomationControl.get_value_locked,
      SlavableAutomationControl.get_masters_value_locked, hms]
    simp only [List.isEmpty_cons, Bool.false_eq_true, if_false]
    split_ifs <;> first | exact le_refl _ | exact hle | exact min_le_left _ _
  have hclamp : max (min (SlavableAutomationControl.get_value_locked c gv) c._desc.upper)
      c._desc.lower = SlavableAutomationControl.get_value_locked c gv := by
    rw [min_eq_left hup, max_eq_left hlow]
  have hnil : ∀ v, R v [] = [] := fun v => Masters_keys_eq_nil _ (by rw [hR]; rfl)
  have her : Masters.erase c._masters m.id = ([], 1) := by
    simp [Masters.erase, hms]
  rw [hgv]
  have hnew : SlavableAutomationControl.get_value_locked
      (SlavableAutomationControl.mk c._desc [] c._user_value c._list_playback c._list_value
        c.MasterStatusChange_count c._session_dirty) gv = c._user_value := by
    simp [SlavableAutomationControl.get_value_locked, Control.get_double]
  have hone : ((1 : Nat) != 0) = true := rfl
  simp only [SlavableAutomationControl.remove_master, her, hnil, hone, if_true, hnew,
    List.length_nil]
  generalize SlavableAutomationControl.get_value_locked c gv = cv at hlow hup hclamp ⊢
  by_cases hsame : c._user_value = cv
  · have hb : (c._user_value != cv) = false := by simpa using hsame
    simp only [hb, Bool.false_eq_true, if_false]
    simp [SlavableAutomationControl.get_value, hplay, SlavableAutomationControl.get_value_locked,
      Control.get_double, hsame]
  · have hb : (c._user_value != cv) = true := by simpa using hsame
    simp only [hb, if_true]
    simp [SlavableAutomationControl.get_value, hplay, SlavableAutomationControl.get_value_locked,
      Control.get_double, SlavableAutomationControl.actually_set_value,
      SlavableAutomationControl.actually_set_value_val, AutomationControl.actually_set_value,
      hclamp]

/-! ## SlavableAutomationControl: gaining a master -/

/-- The state add_master reaches for an absent id, before the final
actually_set_value, has the keys of the map after the insertion, whenever the
hook keeps the keys. -/
theorem add_master_absent_keys (R : ℚ → Masters → Masters) (hR : RecomputeKeepsKeys R)
    (gv : AutomationControlPtr → ℚ) (c : SlavableAutomationControl) (m : AutomationControlPtr)
    (habs : Masters.find c._masters m.id = none) :
    Masters.keys (SlavableAutomationControl.add_master R gv c m)._masters
      = Masters.keys (Masters.insert_sorted m.id (MasterRecord.mk m 1) c._masters) := by
  have hins : Masters.insert c._masters m.id (MasterRecord.mk m 1)
      = (Masters.insert_sorted m.id (MasterRecord.mk m 1) c._masters, true) := by
    simp [Masters.insert, habs]
  simp only [SlavableAutomationControl.add_master, hins, if_true]
  split_ifs <;> simp [actually_set_value_keys R hR, hR _ _]

/-- The count of MasterStatusChange emissions after add_master for an absent
id is one more than before. -/
theorem add_master_absent_count (R : ℚ → Masters → Masters)
    (gv : AutomationControlPtr → ℚ) (c : SlavableAutomationControl) (m : AutomationControlPtr)
    (habs : Masters.find c._masters m.id = none) :
    (SlavableAutomationControl.add_master R gv c m).MasterStatusChange_count
      = c.MasterStatusChange_count + 1 := by
  have hins : Masters.insert c._masters m.id (MasterRecord.mk m 1)
      = (Masters.insert_sorted m.id (MasterRecord.mk m 1) c._masters, true) := by
    simp [Masters.insert, habs]
  simp only [SlavableAutomationControl.add_master, hins, if_true]
  split_ifs <;>
    simp [SlavableAutomationControl.actually_set_value, AutomationControl.actually_set_value] <;>
    split_ifs <;> rfl

/-- With a hook that does nothing, the map after add_master for an absent id
is the map after the insertion. -/
theorem add_master_absent_masters (R : ℚ → Masters → Masters) (hid : ∀ v ms, R v ms = ms)
    (gv : AutomationControlPtr → ℚ) (c : SlavableAutomationControl) (m : AutomationControlPtr)
    (habs : Masters.find c._masters m.id = none) :
    (SlavableAutomationControl.add_master R gv c m)._masters
      = Masters.insert_sorted m.id (MasterRecord.mk m 1) c._masters := by
  have hins : Masters.insert c._masters m.id (MasterRecord.mk m 1)
      = (Masters.insert_sorted m.id (MasterRecord.mk m 1) c._masters, true) := by
    simp [Masters.insert, habs]
  simp only [SlavableAutomationControl.add_master, hins, if_true]
  split_ifs <;>
    simp [SlavableAutomationControl.actually_set_value, AutomationControl.actually_set_value,
      hid]

/-- When the id is present, add_master returns the state it was given. -/
theorem add_master_present (R : ℚ → Masters → Masters)
    (gv : AutomationControlPtr → ℚ) (c : SlavableAutomationControl) (m : AutomationControlPtr)
    (hpres : (Masters.find c._masters m.id).isSome = true) :
    SlavableAutomationControl.add_master R gv c m = c := by
  have hins : Masters.insert c._masters m.id (MasterRecord.mk m 1) = (c._masters, false) := by
    simp [Masters.insert, hpres]
  simp [SlavableAutomationControl.add_master, hins]

/-- The map that add_master has at the end of its locked block for an absent
id is not empty, whenever the hook keeps the keys. -/
theorem add_master_locked_masters_ne_nil (R : ℚ → Masters → Masters)
    (hR : RecomputeKeepsKeys R) (c : SlavableAutomationControl) (m : AutomationControlPtr)
    (v : ℚ) :
    (if c._desc.toggled then
        R v (Masters.insert_sorted m.id (MasterRecord.mk m 1) c._masters)
      else Masters.insert_sorted m.id (MasterRecord.mk m 1) c._masters) ≠ [] := by
  intro hnil
  have hk : Masters.keys
      (if c._desc.toggled then
        R v (Masters.insert_sorted m.id (MasterRecord.mk m 1) c._masters)
      else Masters.insert_sorted m.id (MasterRecord.mk m 1) c._masters)
      = Masters.keys (Masters.insert_sorted m.id (MasterRecord.mk m 1) c._masters) := by
    split_ifs
    · exact hR _ _
    · rfl
  rw [hnil] at hk
  have hmem : m.id ∈ Masters.keys (Masters.insert_sorted m.id (MasterRecord.mk m 1) c._masters) :=
    (Masters_insert_sorted_keys _ _ _).symm.subset (List.mem_cons_self _ _)
  rw [← hk] at hmem
  simp [Masters.keys] at hmem

/-- The map after add_master for an absent id: the record (m, 1.0) is put in
place, the hook runs on the map if the control is toggled, and it runs once
more, from actually_set_value, if the value of the control has changed. -/
theorem add_master_absent_final (R : ℚ → Masters → Masters) (hR : RecomputeKeepsKeys R)
    (gv : AutomationControlPtr → ℚ) (c : SlavableAutomationControl) (m : AutomationControlPtr)
    (habs : Masters.find c._masters m.id = none) :
    (SlavableAutomationControl.add_master R gv c m)._masters
      = (if SlavableAutomationControl.get_value_locked
              { c with _masters :=
                (if c._desc.toggled then
                  R (SlavableAutomationControl.get_value_locked c gv)
                    (Masters.insert_sorted m.id (MasterRecord.mk m 1) c._masters)
                else Masters.insert_sorted m.id (MasterRecord.mk m 1) c._masters) } gv
            != SlavableAutomationControl.get_value_locked c gv
          then
            R (SlavableAutomationControl.actually_set_value_val c
                (SlavableAutomationControl.get_value_locked
                  { c with _masters :=
                    (if c._desc.toggled then
                      R (SlavableAutomationControl.get_value_locked c gv)
                        (Masters.insert_sorted m.id (MasterRecord.mk m 1) c._masters)
                    else Masters.insert_sorted m.id (MasterRecord.mk m 1) c._masters) } gv))
              (if c._desc.toggled then
                R (SlavableAutomationControl.get_value_locked c gv)
                  (Masters.insert_sorted m.id (MasterRecord.mk m 1) c._masters)
              else Masters.insert_sorted m.id (MasterRecord.mk m 1) c._masters)
          else
            (if c._desc.toggled then
              R (SlavableAutomationControl.get_value_locked c gv)
                (Masters.insert_sorted m.id (MasterRecord.mk m 1) c._masters)
            else Masters.insert_sorted m.id (MasterRecord.mk m 1) c._masters)) := by
  have hins : Masters.insert c._masters m.id (MasterRecord.mk m 1)
      = (Masters.insert_sorted m.id (MasterRecord.mk m 1) c._masters, true) := by
    simp [Masters.insert, habs]
  have hne := add_master_locked_masters_ne_nil R hR c m
    (SlavableAutomationControl.get_value_locked c gv)
  simp only [SlavableAutomationControl.add_master, hins, if_true]
  generalize SlavableAutomationControl.get_value_locked c gv = cv at hne ⊢
  cases htog : c._desc.toggled
  · simp only [htog, Bool.false_eq_true, if_false] at hne ⊢
    split_ifs with hchg
    · cases hms : Masters.insert_sorted m.id (MasterRecord.mk m 1) c._masters with
      | nil => exact absurd hms hne
      | cons p ps =>
        simp [SlavableAutomationControl.actually_set_value,
          AutomationControl.actually_set_value, SlavableAutomationControl.actually_set_value_val,
          hms]
    · rfl
  · simp only [htog, if_true] at hne ⊢
    split_ifs with hchg
    · cases hms : R cv (Masters.insert_sorted m.id (MasterRecord.mk m 1) c._masters) with
      | nil => exact absurd hms hne
      | cons p ps =>
        simp [SlavableAutomationControl.actually_set_value,
          AutomationControl.actually_set_value, SlavableAutomationControl.actually_set_value_val,
          hms]
    · rfl

/-- C17, as stated, fails: with a hook that keeps the keys of the map and
sets every ratio to the value it is handed, add_master for the absent master
of id 3, whose value is 1/4, on a control without masters whose own value is 1
(lower 1/2, upper 2) ends with that master stored under ratio 1/2, not 1.0:
the value of the control changes from 1 to 1/4, so actually_set_value runs and
hands the clamped value 1/2 to the hook. -/
theorem add_master_ratio_recomputed :
    RecomputeKeepsKeys sample_hook_scale ∧
    SlavableAutomationControl.slaved_to sample_unslaved (AutomationControlPtr.mk 3) = false ∧
    Masters.find
        (SlavableAutomationControl.add_master sample_hook_scale (fun _ => 1 / 4) sample_unslaved
          (AutomationControlPtr.mk 3))._masters 3
      = some (MasterRecord.mk (AutomationControlPtr.mk 3) (1 / 2)) ∧
    Masters.find
        (SlavableAutomationControl.add_master sample_hook_scale (fun _ => 1 / 4) sample_unslaved
          (AutomationControlPtr.mk 3))._masters 3
      ≠ some (MasterRecord.mk (AutomationControlPtr.mk 3) 1) := by
  have hR : RecomputeKeepsKeys sample_hook_scale := by
    intro v ms
    simp [Masters.keys, sample_hook_scale, Function.comp_def]
  have habs : Masters.find sample_unslaved._masters (AutomationControlPtr.mk 3).id = none := rfl
  have hfin := add_master_absent_final sample_hook_scale hR (fun _ => 1 / 4) sample_unslaved
    (AutomationControlPtr.mk 3) habs
  have hval : Masters.find
        (SlavableAutomationControl.add_master sample_hook_scale (fun _ => 1 / 4) sample_unslaved
          (AutomationControlPtr.mk 3))._masters 3
      = some (MasterRecord.mk (AutomationControlPtr.mk 3) (1 / 2)) := by
    rw [hfin]
    norm_num [sample_unslaved, sample_hook_scale, Masters.insert_sorted, Masters.find,
      SlavableAutomationControl.get_value_locked,
      SlavableAutomationControl.get_masters_value_locked,
      SlavableAutomationControl.actually_set_value_val, Control.get_double,
      MasterRecord.master, MasterRecord.ratio, List.lookup_cons]
  refine ⟨hR, rfl, hval, ?_⟩
  rw [hval]
  norm_num

/-- C17, amended: add_master (m) with the id of m already present returns the
state unchanged: the same masters with the same ratios, no MasterStatusChange
emitted, the same value.  With the id of m absent (and a hook
recompute_masters_ratios that keeps the keys of the map) the keys afterwards
are those before plus that id, once; slaved_to (m) and slaved () are true and
MasterStatusChange has been emitted once.  The record is inserted as
(m, 1.0), and the map at the end is the map after that insertion with the
hook run on it if the control is toggled and run once more if the value of
the control has changed; so the master is found under ratio 1.0 at the end
when the control is not toggled and its value has not changed, and when the
hook leaves the map alone. -/
theorem add_master_idempotent (R : ℚ → Masters → Masters) (hR : RecomputeKeepsKeys R)
    (gv : AutomationControlPtr → ℚ) (c : SlavableAutomationControl) (m : AutomationControlPtr) :
    (SlavableAutomationControl.slaved_to c m = true →
      SlavableAutomationControl.add_master R gv c m = c ∧
      (SlavableAutomationControl.add_master R gv c m)._masters = c._masters ∧
      Masters.find (SlavableAutomationControl.add_master R gv c m)._masters m.id
        = Masters.find c._masters m.id ∧
      (SlavableAutomationControl.add_master R gv c m).MasterStatusChange_count
        = c.MasterStatusChange_count ∧
      SlavableAutomationControl.get_value (SlavableAutomationControl.add_master R gv c m) gv
        = SlavableAutomationControl.get_value c gv) ∧
    (SlavableAutomationControl.slaved_to c m = false →
      List.Perm (Masters.keys (SlavableAutomationControl.add_master R gv c m)._masters)
        (m.id :: Masters.keys c._masters) ∧
      SlavableAutomationControl.slaved_to (SlavableAutomationControl.add_master R gv c m) m
        = true ∧
      SlavableAutomationControl.slaved (SlavableAutomationControl.add_master R gv c m) = true ∧
      (SlavableAutomationControl.add_master R gv c m).MasterStatusChange_count
        = c.MasterStatusChange_count + 1 ∧
      (SlavableAutomationControl.add_master R gv c m)._masters
        = (if SlavableAutomationControl.get_value_locked
                { c with _masters :=
                  (if c._desc.toggled then
                    R (SlavableAutomationControl.get_value_locked c gv)
                      (Masters.insert_sorted m.id (MasterRecord.mk m 1) c._masters)
                  else Masters.insert_sorted m.id (MasterRecord.mk m 1) c._masters) } gv
              != SlavableAutomationControl.get_value_locked c gv
            then
              R (SlavableAutomationControl.actually_set_value_val c
                  (SlavableAutomationControl.get_value_locked
                    { c with _masters :=
                      (if c._desc.toggled then
                        R (SlavableAutomationControl.get_value_locked c gv)
                          (Masters.insert_sorted m.id (MasterRecord.mk m 1) c._masters)
                      else Masters.insert_sorted m.id (MasterRecord.mk m 1) c._masters) } gv))
                (if c._desc.toggled then
                  R (SlavableAutomationControl.get_value_locked c gv)
                    (Masters.insert_sorted m.id (MasterRecord.mk m 1) c._masters)
                else Masters.insert_sorted m.id (MasterRecord.mk m 1) c._masters)
            else
              (if c._desc.toggled then
                R (SlavableAutomationControl.get_value_locked c gv)
                  (Masters.insert_sorted m.id (MasterRecord.mk m 1) c._masters)
              else Masters.insert_sorted m.id (MasterRecord.mk m 1) c._masters)) ∧
      Masters.find (Masters.insert_sorted m.id (MasterRecord.mk m 1) c._masters) m.id
        = some (MasterRecord.mk m 1) ∧
      (c._desc.toggled = false ∧
          SlavableAutomationControl.get_value_locked
              { c with _masters :=
                Masters.insert_sorted m.id (MasterRecord.mk m 1) c._masters } gv
            = SlavableAutomationControl.get_value_locked c gv →
        Masters.find (SlavableAutomationControl.add_master R gv c m)._masters m.id
          = some (MasterRecord.mk m 1)) ∧
      ((∀ v ms, R v ms = ms) →
        Masters.find (SlavableAutomationControl.add_master R gv c m)._masters m.id
          = some (MasterRecord.mk m 1))) := by
  constructor
  · intro hpres
    have h := add_master_present R gv c m hpres
    rw [h]
    exact ⟨rfl, rfl, rfl, rfl, rfl⟩
  · intro hno
    have habs : Masters.find c._masters m.id = none := by
      simpa [SlavableAutomationControl.slaved_to] using hno
    have hnot : m.id ∉ Masters.keys c._masters := by
      intro hm
      have := (Masters_find_isSome_iff c._masters m.id).mpr hm
      simp [habs] at this
    have hkeys := add_master_absent_keys R hR gv c m habs
    have hperm : List.Perm (Masters.keys (SlavableAutomationControl.add_master R gv c m)._masters)
        (m.id :: Masters.keys c._masters) := by
      rw [hkeys]
      exact Masters_insert_sorted_keys _ _ _
    have hmem : m.id ∈ Masters.keys (SlavableAutomationControl.add_master R gv c m)._masters :=
      hperm.symm.subset (List.mem_cons_self _ _)
    have hfound := Masters_insert_sorted_find c._masters m.id (MasterRecord.mk m 1) hnot
    have hfin := add_master_absent_final R hR gv c m habs
    refine ⟨hperm, ?_, ?_, add_master_absent_count R gv c m habs, hfin, hfound, ?_, ?_⟩
    · exact (Masters_find_isSome_iff _ _).mpr hmem
    · cases hms : (SlavableAutomationControl.add_master R gv c m)._masters with
      | nil =>
        rw [hms] at hmem
        simp [Masters.keys] at hmem
      | cons p ps => simp [SlavableAutomationControl.slaved, hms]
    · intro hquiet
      obtain ⟨htog, hsame⟩ := hquiet
      rw [hfin]
      simp only [htog, Bool.false_eq_true, if_false, hsame, bne_self_eq_false]
      exact hfound
    · intro hid
      rw [add_master_absent_masters R hid gv c m habs]
      exact hfound

/-- Instances of the amended C17 on a control whose only master has id 7.
With a hook that does nothing, adding the master of id 7 again changes
nothing, and adding the master of id 3 makes slaved_to true for it, under
ratio 1, and emits MasterStatusChange once.  With the hook that sets every
ratio to the value it is handed, the master of id 3 is found as well after it
is added. -/
theorem add_master_idempotent_witness :
    RecomputeKeepsKeys sample_hook ∧
    SlavableAutomationControl.add_master sample_hook (fun _ => 1) sample_ranged
        (AutomationControlPtr.mk 7)
      = sample_ranged ∧
    SlavableAutomationControl.slaved_to
        (SlavableAutomationControl.add_master sample_hook (fun _ => 1) sample_ranged
          (AutomationControlPtr.mk 3))
        (AutomationControlPtr.mk 3)
      = true ∧
    Masters.find
        (SlavableAutomationControl.add_master sample_hook (fun _ => 1) sample_ranged
          (AutomationControlPtr.mk 3))._masters 3
      = some (MasterRecord.mk (AutomationControlPtr.mk 3) 1) ∧
    (SlavableAutomationControl.add_master sample_hook (fun _ => 1) sample_ranged
        (AutomationControlPtr.mk 3)).MasterStatusChange_count
      = 1 ∧
    RecomputeKeepsKeys sample_hook_scale ∧
    SlavableAutomationControl.slaved_to
        (SlavableAutomationControl.add_master sample_hook_scale (fun _ => 1 / 4) sample_ranged
          (AutomationControlPtr.mk 3))
        (AutomationControlPtr.mk 3)
      = true := by
  have hR : RecomputeKeepsKeys sample_hook := fun _ _ => rfl
  have hS : RecomputeKeepsKeys sample_hook_scale := by
    intro v ms
    simp [Masters.keys, sample_hook_scale, Function.comp_def]
  have h7 := (add_master_idempotent sample_hook hR (fun _ => 1) sample_ranged
    (AutomationControlPtr.mk 7)).1 rfl
  have h3 := (add_master_idempotent sample_hook hR (fun _ => 1) sample_ranged
    (AutomationControlPtr.mk 3)).2 rfl
  have hs := (add_master_idempotent sample_hook_scale hS (fun _ => 1 / 4) sample_ranged
    (AutomationControlPtr.mk 3)).2 rfl
  exact ⟨hR, h7.1, h3.2.1, h3.2.2.2.2.2.2.2 (fun _ _ => rfl), h3.2.2.2.1, hS, hs.2.1⟩

/-! ## SlavableAutomationControl: the records hold live masters

The property `MastersAlive` holds of a control without masters and is kept by
add_master, for a live master, and by remove_master, when the hook leaves the
records under their keys and with their masters. -/

/-- The property MastersAlive only looks at the keys and the masters. -/
theorem MastersAlive_congr (alive : AutomationControlPtr → Bool)
    (c c2 : SlavableAutomationControl)
    (h : c2._masters.map (fun p => (p.1, MasterRecord.master p.2))
      = c._masters.map (fun p => (p.1, MasterRecord.master p.2)))
    (hinv : MastersAlive alive c) : MastersAlive alive c2 := by
  intro p hp
  have hmem : (p.1, MasterRecord.master p.2)
      ∈ c2._masters.map (fun p => (p.1, MasterRecord.master p.2)) :=
    List.mem_map.mpr ⟨p, hp, rfl⟩
  rw [h] at hmem
  obtain ⟨q, hq, hqe⟩ := List.mem_map.mp hmem
  have h1 : q.1 = p.1 := (Prod.mk.inj hqe).1
  have h2 : MasterRecord.master q.2 = MasterRecord.master p.2 := (Prod.mk.inj hqe).2
  have hq2 := hinv q hq
  rw [h1, h2] at hq2
  exact hq2

/-- A control without masters has the property. -/
theorem MastersAlive_nil (alive : AutomationControlPtr → Bool) (c : SlavableAutomationControl)
    (h : c._masters = []) : MastersAlive alive c := by
  intro p hp
  rw [h] at hp
  exact absurd hp (List.not_mem_nil p)

/-- The records after an insertion in key order are the new one and the old. -/
theorem Masters_insert_sorted_mem (ms : Masters) (k : Nat) (r : MasterRecord)
    (p : Nat × MasterRecord) :
    p ∈ Masters.insert_sorted k r ms ↔ p = (k, r) ∨ p ∈ ms := by
  induction ms with
  | nil => simp [Masters.insert_sorted]
  | cons q qs ih =>
    by_cases h : k < q.1
    · simp [Masters.insert_sorted, h]
    · simp only [Masters.insert_sorted, h, if_false, List.mem_cons, ih]
      tauto

/-- With a hook that keeps the masters, actually_set_value keeps them. -/
theorem actually_set_value_masters (R : ℚ → Masters → Masters) (hR : RecomputeKeepsMasters R)
    (c : SlavableAutomationControl) (val : ℚ) :
    (SlavableAutomationControl.actually_set_value R c val)._masters.map
        (fun p => (p.1, MasterRecord.master p.2))
      = c._masters.map (fun p => (p.1, MasterRecord.master p.2)) := by
  cases hms : c._masters with
  | nil =>
    simp [SlavableAutomationControl.actually_set_value, AutomationControl.actually_set_value,
      hms]
  | cons q qs =>
    simp only [SlavableAutomationControl.actually_set_value,
      AutomationControl.actually_set_value, hms, List.isEmpty_cons, Bool.not_false, if_true]
    exact hR _ _

/-- The property MastersAlive is kept by add_master for a live master. -/
theorem add_master_MastersAlive (R : ℚ → Masters → Masters) (hR : RecomputeKeepsMasters R)
    (gv : AutomationControlPtr → ℚ) (alive : AutomationControlPtr → Bool)
    (c : SlavableAutomationControl) (m : AutomationControlPtr) (hm : alive m = true)
    (hinv : MastersAlive alive c) :
    MastersAlive alive (SlavableAutomationControl.add_master R gv c m) := by
  have hbase : MastersAlive alive
      { c with _masters := (Masters.insert c._masters m.id (MasterRecord.mk m 1)).1 } := by
    intro p hp
    simp only [Masters.insert] at hp
    split_ifs at hp
    · exact hinv p hp
    · rcases (Masters_insert_sorted_mem _ _ _ _).mp hp with h | h
      · rw [h]
        exact ⟨rfl, hm⟩
      · exact hinv p h
  refine MastersAlive_congr alive _ _ ?_ hbase
  simp only [SlavableAutomationControl.add_master]
  split_ifs <;> simp only [actually_set_value_masters R hR, hR _ _]

/-- The property MastersAlive is kept by remove_master. -/
theorem remove_master_MastersAlive (R : ℚ → Masters → Masters) (hR : RecomputeKeepsMasters R)
    (gv : AutomationControlPtr → ℚ) (alive : AutomationControlPtr → Bool)
    (c : SlavableAutomationControl) (m : AutomationControlPtr)
    (hinv : MastersAlive alive c) :
    MastersAlive alive (SlavableAutomationControl.remove_master R gv c m) := by
  have hbase : MastersAlive alive
      { c with _masters := (Masters.erase c._masters m.id).1 } := by
    intro p hp
    simp only [Masters.erase] at hp
    exact hinv p (List.mem_filter.mp hp).1
  refine MastersAlive_congr alive _ _ ?_ hbase
  simp only [SlavableAutomationControl.remove_master]
  split_ifs <;> simp only [actually_set_value_masters R hR, hR _ _]

end ARDOUR
